import Mathlib

/-!
# Verification of the doctor_website appointment core

Shallow embedding of the slot-generation engine (`doctors/services.py`),
the booking service (`appointments/services.py`), and the patient
appointments service (`appointments/services/patient_appointments_service.py`)
of the `doctor_website` repository, together with proofs of the claimed
properties.

Modelling conventions:
* Times of day are minutes since midnight (`Nat`, < 1440).  Python `time`
  values compare lexicographically, which agrees with the minute count; all
  slot times are whole minutes, so minute granularity is exact for every
  comparison the code performs.
* Dates are day counts from a reference Monday, so `date % 7` is exactly
  Python's `date.weekday()` (0 = Monday … 6 = Sunday, matching the
  `DAY_CHOICES` of `DoctorAvailability`).
* Django querysets over a table become list `filter`/`find?` over the
  corresponding list in a `DB` record; `order_by("start_time")` becomes a
  stable insertion sort.
* The code runs requests sequentially from the database's point of view:
  `select_for_update` totally orders writers on a doctor-day, so the
  booking/edit services are modelled as deterministic state transformers.
* `transaction.on_commit` callbacks run immediately after the state change
  (Django executes them synchronously once no atomic block is active), and
  an exception raised by a callback propagates to the caller while the
  committed write stays persisted.  Operations therefore return both the
  resulting state and an `Except` outcome.
* The notification table is threaded separately from `DB` because only the
  notification dispatchers read or write it.
-/

namespace DoctorWebsite

/-- `Appointment.Status` choices from `appointments/models.py`. -/
inductive Status where
  | PENDING
  | CONFIRMED
  | CHECKED_IN
  | IN_PROGRESS
  | COMPLETED
  | CANCELLED
  | NO_SHOW
deriving DecidableEq, Repr

/-- `AppointmentType` model (`appointments/models.py`): duration and ownership
fields used by the services. -/
structure AppointmentType where
  id : Nat
  doctorId : Nat
  clinicId : Nat
  durationMinutes : Nat
  isActive : Bool
deriving DecidableEq, Repr

/-- `DoctorAvailability` model (`doctors/models.py`): a recurring weekly
availability block; times are minutes since midnight. -/
structure DoctorAvailability where
  doctorId : Nat
  clinicId : Nat
  dayOfWeek : Nat
  startTime : Nat
  endTime : Nat
  isActive : Bool
deriving DecidableEq, Repr

/-- `Clinic` model (`clinics/models.py`), restricted to the fields the
booking services read. -/
structure Clinic where
  id : Nat
  name : String
  isActive : Bool
deriving DecidableEq, Repr

/-- `ClinicStaff` model (`clinics/models.py`), restricted to the fields the
notification fan-out reads. -/
structure ClinicStaff where
  id : Nat
  clinicId : Nat
  userId : Nat
  role : String
  isActive : Bool
deriving DecidableEq, Repr

/-- A user row, as far as the services need it (names appear in notification
messages). -/
structure User where
  id : Nat
  name : String
deriving DecidableEq, Repr

/-- `Appointment` model (`appointments/models.py`).  `doctor` and
`appointment_type` are nullable foreign keys. -/
structure Appointment where
  id : Nat
  patientId : Nat
  clinicId : Nat
  doctorId : Option Nat
  appointmentTypeId : Option Nat
  date : Nat
  time : Nat
  status : Status
  reason : String
  patientEditCount : Nat
  createdById : Option Nat
deriving DecidableEq, Repr

/-- `AppointmentNotification.Type` choices. -/
inductive NotifType where
  | APPOINTMENT_CANCELLED
  | APPOINTMENT_EDITED
deriving DecidableEq, Repr

/-- The notification titles the services build.  `cancelledByPatient` is the
Arabic title "إلغاء موعد من قبل المريض" (appointment cancelled by the
patient); `editedByPatient` is "تعديل موعد من قبل المريض"; `yourAppointmentCancelled`
is the title "تم إلغاء موعدك" sent to the patient on a staff cancellation. -/
inductive NotifTitle where
  | editedByPatient
  | cancelledByPatient
  | yourAppointmentCancelled
deriving DecidableEq, Repr

/-- Structured rendering of the notification message bodies.  Each
constructor corresponds to one message template in the source; in
particular `patientCancelledMsg` is the body "قام المريض … بإلغاء موعده …"
stating that the patient cancelled the appointment. -/
inductive NotifMessage where
  | patientEditedMsg (patientName : String) (oldDate oldTime newDate newTime : Nat)
      (clinicName : String)
  | patientCancelledMsg (patientName : String) (date time : Nat) (clinicName : String)
  | staffCancelledMsg (doctorName : String) (date time : Nat) (clinicName : String)
deriving DecidableEq, Repr

/-- `AppointmentNotification` model (`appointments/models.py`). -/
structure AppointmentNotification where
  patientId : Nat
  appointmentId : Option Nat
  notificationType : NotifType
  title : NotifTitle
  message : NotifMessage
  cancelledByStaffId : Option Nat
  isDelivered : Bool
deriving DecidableEq, Repr

/-- The relational state the services read and write (minus the
notification table, which is threaded separately because only the
dispatchers touch it). -/
structure DB where
  users : List User
  clinics : List Clinic
  clinicStaff : List ClinicStaff
  availabilities : List DoctorAvailability
  appointmentTypes : List AppointmentType
  appointments : List Appointment
  nextAppointmentId : Nat
deriving DecidableEq, Repr

/-- Python `date.weekday()`: dates are day counts from a Monday. -/
def dayOfWeek (d : Nat) : Nat := d % 7

/-- `_add_minutes_to_time` (`doctors/services.py`): adds minutes to a time of
day; taking `.time()` of the shifted datetime wraps at midnight. -/
def _add_minutes_to_time (t minutes : Nat) : Nat := (t + minutes) % 1440

/-- Stable insert for the ascending `order_by("start_time")`. -/
def insertByStart (b : DoctorAvailability) :
    List DoctorAvailability → List DoctorAvailability
  | [] => [b]
  | x :: xs =>
    if b.startTime < x.startTime then b :: x :: xs else x :: insertByStart b xs

/-- `order_by("start_time")`: stable ascending sort by `start_time`. -/
def sortByStartTime : List DoctorAvailability → List DoctorAvailability
  | [] => []
  | x :: xs => insertByStart x (sortByStartTime xs)

/-- One generated slot: `{"time": …, "end_time": …, "is_available": …}`. -/
structure Slot where
  time : Nat
  endTime : Nat
  isAvailable : Bool
deriving DecidableEq, Repr

/-- The duration used for a booked interval (`doctors/services.py` lines
60–63): the appointment's own type duration when the type is present and its
duration is truthy (non-zero), else the caller's requested duration. -/
def bookedDuration (db : DB) (durationMinutes : Nat) (a : Appointment) : Nat :=
  match a.appointmentTypeId.bind
      (fun tid => db.appointmentTypes.find? (fun t => decide (t.id = tid))) with
  | some t => if t.durationMinutes ≠ 0 then t.durationMinutes else durationMinutes
  | none => durationMinutes

/-- The `booked_ranges` list: `(start, end)` for every appointment of this
doctor on this date, across all clinics, whose status is CONFIRMED or
COMPLETED.  `doctorId` is optional because the edit path forwards the
appointment's nullable `doctor_id`; `filter(doctor_id=None)` matches rows
whose doctor is NULL. -/
def bookedRanges (db : DB) (doctorId : Option Nat) (targetDate durationMinutes : Nat) :
    List (Nat × Nat) :=
  (db.appointments.filter (fun a =>
      decide (a.doctorId = doctorId ∧ a.date = targetDate ∧
        (a.status = Status.CONFIRMED ∨ a.status = Status.COMPLETED)))).map
    (fun a => (a.time, _add_minutes_to_time a.time (bookedDuration db durationMinutes a)))

/-- `_is_slot_booked`: overlap exists when
`booked_start < slot_end and booked_end > slot_start`. -/
def _is_slot_booked (slotStart slotEnd : Nat) (ranges : List (Nat × Nat)) : Bool :=
  ranges.any (fun r => decide (r.1 < slotEnd ∧ r.2 > slotStart))

/-- The `while current + duration <= block_end` loop of
`generate_slots_for_date`.  `fuel` bounds the number of iterations; any fuel
larger than `blockEnd` is enough when `duration ≥ 1` (a zero duration makes
the Python loop spin forever, but `AppointmentType.duration_minutes` is
positive in the data model). -/
def slotLoop (booked : List (Nat × Nat)) :
    Nat → Nat → Nat → Nat → List Slot
  | 0, _, _, _ => []
  | fuel + 1, current, blockEnd, duration =>
    if current + duration ≤ blockEnd then
      { time := current
        endTime := current + duration
        isAvailable := !_is_slot_booked current (current + duration) booked } ::
        slotLoop booked fuel (current + duration) blockEnd duration
    else []

/-- `generate_slots_for_date` (`doctors/services.py`): active availability
blocks for the doctor, clinic and weekday, ascending by start time; booked
ranges for the doctor on the date across all clinics; duration-sized slots
from each block with an availability flag.  (The early return on an empty
block list produces the same empty result as the loop over no blocks.) -/
def generate_slots_for_date (db : DB) (doctorId : Option Nat)
    (clinicId targetDate durationMinutes : Nat) : List Slot :=
  let day := dayOfWeek targetDate
  let blocks := sortByStartTime (db.availabilities.filter (fun b =>
    decide (some b.doctorId = doctorId ∧ b.clinicId = clinicId ∧
      b.dayOfWeek = day ∧ b.isActive = true)))
  let booked := bookedRanges db doctorId targetDate durationMinutes
  blocks.flatMap (fun block =>
    slotLoop booked (block.endTime + 1) block.startTime block.endTime durationMinutes)

/-! ## Booking service (`appointments/services.py`) -/

/-- `BookingError` and its subclasses: every booking failure carries a
message and a stable `code` string. -/
structure BookingError where
  message : String
  code : String
deriving DecidableEq, Repr

/-- `SlotUnavailableError()` with its default message. -/
def slotUnavailableError : BookingError :=
  { message := "This time slot is no longer available. Please select another slot."
    code := "slot_unavailable" }

/-- `InvalidSlotError()` with its default message. -/
def invalidSlotError : BookingError :=
  { message := "The selected time is not a valid slot for this doctor."
    code := "invalid_slot" }

/-- `PastDateError(message)`: code is always `past_date`. -/
def pastDateError (message : String) : BookingError :=
  { message := message, code := "past_date" }

/-- `book_appointment` (`appointments/services.py` lines 56–199), as the
deterministic state transformer obtained once the doctor-day lock serializes
writers.  `today` and `nowTime` are `date.today()` and
`datetime.now().time()` (floored to the minute, which is exact for every
comparison made).  Inside the lock the slots are regenerated; in the
sequential model the state has not changed between the two generations, but
the re-check is kept as written. -/
def book_appointment (db : DB) (today nowTime : Nat)
    (patientId doctorId clinicId appointmentTypeId : Nat)
    (appointmentDate appointmentTime : Nat) (reason : String) :
    Except BookingError (DB × Appointment) :=
  -- 1. Basic date validation
  if appointmentDate < today then
    Except.error (pastDateError "Cannot book appointments for past dates.")
  else if appointmentDate = today ∧ appointmentTime ≤ nowTime then
    Except.error (pastDateError "Cannot book a slot that has already passed today.")
  else
    -- 2. Validate clinic exists (`Clinic.objects.get(id=…, is_active=True)`)
    match db.clinics.find? (fun c => decide (c.id = clinicId ∧ c.isActive = true)) with
    | none =>
      Except.error { message := "Clinic not found or inactive.", code := "invalid_clinic" }
    | some clinic =>
      -- 3. Validate appointment type
      match db.appointmentTypes.find? (fun t =>
          decide (t.id = appointmentTypeId ∧ t.doctorId = doctorId ∧
            t.clinicId = clinicId ∧ t.isActive = true)) with
      | none =>
        Except.error { message := "Appointment type not found for this doctor and clinic.",
                       code := "invalid_appointment_type" }
      | some appointmentType =>
        -- 4. Validate the slot is a legitimate generated slot
        let slots := generate_slots_for_date db (some doctorId) clinicId appointmentDate
          appointmentType.durationMinutes
        match slots.find? (fun s => decide (s.time = appointmentTime)) with
        | none => Except.error invalidSlotError
        | some matchingSlot =>
          -- Quick pre-check before acquiring lock (fail fast)
          if matchingSlot.isAvailable = false then
            Except.error slotUnavailableError
          else
            -- 5. Acquire lock and re-validate (atomic).  The
            -- `select_for_update` over the doctor's CONFIRMED/CHECKED_IN/
            -- IN_PROGRESS rows orders concurrent writers; its value is unused.
            let _lockedTimes := ((db.appointments.filter (fun a =>
                decide (a.doctorId = some doctorId ∧ a.date = appointmentDate ∧
                  (a.status = Status.CONFIRMED ∨ a.status = Status.CHECKED_IN ∨
                    a.status = Status.IN_PROGRESS)))).map (fun a => a.time))
            let slotsUnderLock := generate_slots_for_date db (some doctorId) clinicId
              appointmentDate appointmentType.durationMinutes
            match slotsUnderLock.find? (fun s => decide (s.time = appointmentTime)) with
            | none => Except.error slotUnavailableError
            | some slotUnderLock =>
              if slotUnderLock.isAvailable = false then
                Except.error slotUnavailableError
              else
                -- 6. Create the appointment
                let appointment : Appointment :=
                  { id := db.nextAppointmentId
                    patientId := patientId
                    clinicId := clinic.id
                    doctorId := some doctorId
                    appointmentTypeId := some appointmentType.id
                    date := appointmentDate
                    time := appointmentTime
                    status := Status.CONFIRMED
                    reason := reason
                    patientEditCount := 0
                    createdById := some patientId }
                let db' : DB :=
                  { db with
                    appointments := db.appointments ++ [appointment]
                    nextAppointmentId := db.nextAppointmentId + 1 }
                Except.ok (db', appointment)

/-! ## Patient appointments service
(`appointments/services/patient_appointments_service.py`) -/

/-- Exceptions escaping the cancel/edit services.  `valueError` is the
domain error the services raise deliberately; `nameError` models Python's
`NameError` for a reference to an undefined name; `integrityError` models a
database uniqueness violation propagating out of an unguarded `create`. -/
inductive ServiceError where
  | valueError (message : String)
  | nameError (name : String)
  | integrityError
deriving DecidableEq, Repr

/-- `_TERMINAL_STATUSES`: statuses that cannot be cancelled. -/
def _TERMINAL_STATUSES : List Status :=
  [Status.COMPLETED, Status.CANCELLED, Status.NO_SHOW]

/-- `MAX_PATIENT_EDITS = 2`. -/
def MAX_PATIENT_EDITS : Nat := 2

/-- `CANCELLATION_WINDOW_HOURS = 2`. -/
def CANCELLATION_WINDOW_HOURS : Nat := 2

/-- Minutes from now (`today`, `nowTime`) until the appointment's combined
date+time.  `hours_until < CANCELLATION_WINDOW_HOURS` in the source is
`minutesUntil < CANCELLATION_WINDOW_HOURS * 60` at minute granularity. -/
def minutesUntil (apptDate apptTime today nowTime : Nat) : Int :=
  ((apptDate * 1440 + apptTime : Nat) : Int) - ((today * 1440 + nowTime : Nat) : Int)

/-- Resolve a user name with the source's fallback string. -/
def userName (db : DB) (uid : Option Nat) (fallback : String) : String :=
  match uid.bind (fun u => db.users.find? (fun x => decide (x.id = u))) with
  | some u => u.name
  | none => fallback

/-- Resolve the clinic name of a non-null clinic foreign key. -/
def clinicNameOf (db : DB) (cid : Nat) : String :=
  match db.clinics.find? (fun c => decide (c.id = cid)) with
  | some c => c.name
  | none => ""

/-- Apply `f` to the appointment row with the given primary key. -/
def updateAppointmentRow (db : DB) (aid : Nat) (f : Appointment → Appointment) : DB :=
  { db with appointments := db.appointments.map (fun a => if a.id = aid then f a else a) }

/-- `appointment.status = …; appointment.save(update_fields=["status", …])`. -/
def setAppointmentStatus (db : DB) (aid : Nat) (st : Status) : DB :=
  updateAppointmentRow db aid (fun a => { a with status := st })

/-- Overwrite a row's `patient_edit_count` (used to state that staff actions
ignore the counter). -/
def setPatientEditCount (db : DB) (aid : Nat) (n : Nat) : DB :=
  updateAppointmentRow db aid (fun a => { a with patientEditCount := n })

/-- `AppointmentNotification.objects.create(…)` under the model's
`UniqueConstraint(fields=["appointment", "notification_type"])`: the insert
fails with an integrity error when a row with the same non-null appointment
and the same type already exists (SQL `UNIQUE` never treats two NULLs as
equal). -/
def createNotification (ns : List AppointmentNotification)
    (n : AppointmentNotification) : Except Unit (List AppointmentNotification) :=
  if ns.any (fun m => decide (m.appointmentId ≠ none ∧
      m.appointmentId = n.appointmentId ∧ m.notificationType = n.notificationType)) then
    Except.error ()
  else
    Except.ok (ns ++ [n])

/-- Record of one `create` call made by a notification fan-out loop. -/
structure CreateAttempt where
  recipientId : Nat
  notificationType : NotifType
  title : NotifTitle
  message : NotifMessage
  succeeded : Bool
deriving DecidableEq, Repr

/-- The `for user_id in recipients: try: create(…) except: log` loop: each
failure is logged and swallowed, the loop continues. -/
def attemptCreateAll (mk : Nat → AppointmentNotification) :
    List AppointmentNotification → List Nat →
    List AppointmentNotification × List CreateAttempt
  | ns, [] => (ns, [])
  | ns, uid :: rest =>
    match createNotification ns (mk uid) with
    | Except.ok ns' =>
      let r := attemptCreateAll mk ns' rest
      (r.1, { recipientId := uid, notificationType := (mk uid).notificationType,
              title := (mk uid).title, message := (mk uid).message,
              succeeded := true } :: r.2)
    | Except.error _ =>
      let r := attemptCreateAll mk ns rest
      (r.1, { recipientId := uid, notificationType := (mk uid).notificationType,
              title := (mk uid).title, message := (mk uid).message,
              succeeded := false } :: r.2)

/-- The recipient set built by the staff fan-out: the assigned doctor (if
any) plus every active secretary of the appointment's clinic, each at most
once (`recipients` is a Python set; its iteration order is unspecified, so
no theorem below depends on the order among recipients). -/
def editRecipients (db : DB) (appointment : Appointment) : List Nat :=
  let base := match appointment.doctorId with
    | some d => [d]
    | none => []
  let secretaryIds := (db.clinicStaff.filter (fun s =>
      decide (s.clinicId = appointment.clinicId ∧ s.role = "SECRETARY" ∧
        s.isActive = true))).map (fun s => s.userId)
  (base ++ secretaryIds).dedup

/-- `_notify_staff_patient_edited` (lines 450–546).  The function first fans
out an APPOINTMENT_EDITED notification to the doctor and the active
secretaries; the module then contains, inside the same function body, the
orphaned docstring and body of the patient-cancellation staff notifier
(whose `def` line is missing from the module), so the same function
afterwards fans out an APPOINTMENT_CANCELLED notification with the
"patient cancelled" title and message to the same recipients, using the
appointment's (post-edit) date and time.  Every `create` is wrapped in
`try/except`, so the function never raises. -/
def _notify_staff_patient_edited (db : DB) (ns : List AppointmentNotification)
    (appointment : Appointment) (oldDate oldTime : Nat) (_oldTypeId : Option Nat) :
    List AppointmentNotification × List CreateAttempt :=
  let patientName := userName db (some appointment.patientId) "مريض"
  let cname := clinicNameOf db appointment.clinicId
  let recipients := editRecipients db appointment
  let mkEdited : Nat → AppointmentNotification := fun uid =>
    { patientId := uid
      appointmentId := some appointment.id
      notificationType := NotifType.APPOINTMENT_EDITED
      title := NotifTitle.editedByPatient
      message := NotifMessage.patientEditedMsg patientName oldDate oldTime
        appointment.date appointment.time cname
      cancelledByStaffId := none
      isDelivered := true }
  let r1 := attemptCreateAll mkEdited ns recipients
  -- Below is the merged tail: the body of the lost `_notify_staff_patient_cancelled`,
  -- which recomputes the same recipient set and sends the cancellation text.
  let recipients2 := editRecipients db appointment
  let mkCancelled : Nat → AppointmentNotification := fun uid =>
    { patientId := uid
      appointmentId := some appointment.id
      notificationType := NotifType.APPOINTMENT_CANCELLED
      title := NotifTitle.cancelledByPatient
      message := NotifMessage.patientCancelledMsg patientName
        appointment.date appointment.time cname
      cancelledByStaffId := none
      isDelivered := true }
  let r2 := attemptCreateAll mkCancelled r1.1 recipients2
  (r2.1, r1.2 ++ r2.2)

/-- `cancel_appointment` (lines 239–298), including its post-commit
notification dispatch.  The first component of the result is the database
state after the call: the status update is committed before the dispatch
runs, and stays committed even when the dispatch raises.  The dispatch
refers to `_notify_staff_patient_cancelled`, a name the module never
defines, so whenever every check passes the callback raises `NameError`
after the CANCELLED status has been persisted. -/
def cancel_appointment (db : DB) (ns : List AppointmentNotification)
    (today nowTime : Nat) (appointmentId patientId : Nat) :
    DB × List AppointmentNotification × Except ServiceError Bool :=
  match db.appointments.find? (fun a =>
      decide (a.id = appointmentId ∧ a.patientId = patientId)) with
  | none => (db, ns, Except.error (ServiceError.valueError "الموعد غير موجود."))
  | some appointment =>
    if appointment.status ∈ _TERMINAL_STATUSES then
      (db, ns, Except.error (ServiceError.valueError "لا يمكن إلغاء هذا الموعد."))
    -- CANCELLATION_WINDOW_HOURS = 2 > 0, so the time-based policy always applies
    else if minutesUntil appointment.date appointment.time today nowTime <
        (CANCELLATION_WINDOW_HOURS * 60 : Nat) then
      (db, ns, Except.error (ServiceError.valueError
        "لا يمكن إلغاء الموعد قبل أقل من 2 ساعة من موعده. يرجى التواصل مع العيادة مباشرة."))
    else
      let db' := setAppointmentStatus db appointment.id Status.CANCELLED
      -- transaction.on_commit(lambda: _notify_staff_patient_cancelled(appointment)):
      -- the callback runs after the commit and hits an undefined name.
      (db', ns, Except.error (ServiceError.nameError "_notify_staff_patient_cancelled"))

/-- Error message for the patient edit limit (`MAX_PATIENT_EDITS` is 2). -/
def editLimitMessage : String :=
  "لقد استنفدت الحد الأقصى من التعديلات (2). يرجى التواصل مع العيادة لتعديل الموعد."

/-- `edit_appointment` (lines 306–447), including its post-commit
notification fan-out.  The updated row and the list of notification create
attempts accompany a successful outcome; the first component is the
database state after the call. -/
def edit_appointment (db : DB) (ns : List AppointmentNotification)
    (today nowTime : Nat) (appointmentId patientId : Nat)
    (newDate newTime : Nat) (newTypeId : Option Nat) (newReason : Option String) :
    DB × List AppointmentNotification ×
      Except ServiceError (Appointment × List CreateAttempt) :=
  match db.appointments.find? (fun a =>
      decide (a.id = appointmentId ∧ a.patientId = patientId)) with
  | none => (db, ns, Except.error (ServiceError.valueError "الموعد غير موجود."))
  | some appointment =>
    if ¬(appointment.status = Status.PENDING ∨ appointment.status = Status.CONFIRMED) then
      (db, ns, Except.error (ServiceError.valueError "لا يمكن تعديل هذا الموعد."))
    else if MAX_PATIENT_EDITS ≤ appointment.patientEditCount then
      (db, ns, Except.error (ServiceError.valueError editLimitMessage))
    -- Time-based policy (CANCELLATION_WINDOW_HOURS = 2 > 0)
    else if minutesUntil appointment.date appointment.time today nowTime <
        (CANCELLATION_WINDOW_HOURS * 60 : Nat) then
      (db, ns, Except.error (ServiceError.valueError
        "لا يمكن تعديل الموعد قبل أقل من 2 ساعة من موعده. يرجى التواصل مع العيادة مباشرة."))
    -- Date validation
    else if newDate < today then
      (db, ns, Except.error (ServiceError.valueError "لا يمكن اختيار تاريخ في الماضي."))
    else if newDate = today ∧ newTime ≤ nowTime then
      (db, ns, Except.error (ServiceError.valueError "لا يمكن اختيار وقت قد مضى اليوم."))
    else
      -- Appointment type validation.  `new_type_id and new_type_id != current`:
      -- a Python int id is truthy when non-zero.
      let currentType := appointment.appointmentTypeId.bind
        (fun tid => db.appointmentTypes.find? (fun t => decide (t.id = tid)))
      let typeResult : Except ServiceError (Option AppointmentType) :=
        match newTypeId with
        | some tid =>
          if tid ≠ 0 ∧ some tid ≠ currentType.map (fun t => t.id) then
            match db.appointmentTypes.find? (fun t =>
                decide (t.id = tid ∧ some t.doctorId = appointment.doctorId ∧
                  t.clinicId = appointment.clinicId ∧ t.isActive = true)) with
            | some t => Except.ok (some t)
            | none => Except.error (ServiceError.valueError "نوع الموعد غير صالح.")
          else Except.ok currentType
        | none => Except.ok currentType
      match typeResult with
      | Except.error e => (db, ns, Except.error e)
      | Except.ok none =>
        (db, ns, Except.error (ServiceError.valueError "لم يتم تحديد نوع الموعد."))
      | Except.ok (some appointmentType) =>
        -- Slot validation (pre-check)
        let slots := generate_slots_for_date db appointment.doctorId
          appointment.clinicId newDate appointmentType.durationMinutes
        match slots.find? (fun s => decide (s.time = newTime)) with
        | none => (db, ns, Except.error (ServiceError.valueError
            "الوقت المحدد غير متاح ضمن جدول الطبيب."))
        | some matchingSlot =>
          let isSameSlot := newDate = appointment.date ∧ newTime = appointment.time
          if matchingSlot.isAvailable = false ∧ ¬isSameSlot then
            (db, ns, Except.error (ServiceError.valueError
              "هذا الموعد محجوز بالفعل. يرجى اختيار وقت آخر."))
          else
            -- Atomic update with lock: `select_for_update` over the doctor-day's
            -- CONFIRMED/CHECKED_IN/IN_PROGRESS/PENDING rows minus this row.
            let _lockedTimes := ((db.appointments.filter (fun a =>
                decide (a.doctorId = appointment.doctorId ∧ a.date = newDate ∧
                  (a.status = Status.CONFIRMED ∨ a.status = Status.CHECKED_IN ∨
                    a.status = Status.IN_PROGRESS ∨ a.status = Status.PENDING) ∧
                  a.id ≠ appointment.id))).map (fun a => a.time))
            let slotsLocked := generate_slots_for_date db appointment.doctorId
              appointment.clinicId newDate appointmentType.durationMinutes
            match slotsLocked.find? (fun s => decide (s.time = newTime)) with
            | none => (db, ns, Except.error (ServiceError.valueError "الوقت المحدد غير متاح."))
            | some slotLocked =>
              if slotLocked.isAvailable = false ∧ ¬isSameSlot then
                (db, ns, Except.error (ServiceError.valueError
                  "هذا الموعد محجوز بالفعل. يرجى اختيار وقت آخر."))
              else
                let oldDate := appointment.date
                let oldTime := appointment.time
                let oldTypeId := appointment.appointmentTypeId
                let appointment' : Appointment :=
                  { appointment with
                    date := newDate
                    time := newTime
                    appointmentTypeId := some appointmentType.id
                    reason := match newReason with
                      | some r => r
                      | none => appointment.reason
                    patientEditCount := appointment.patientEditCount + 1 }
                let db1 := updateAppointmentRow db appointment.id (fun _ => appointment')
                -- transaction.on_commit → _notify_staff_patient_edited (never raises)
                let rn :=
                  _notify_staff_patient_edited db1 ns appointment' oldDate oldTime oldTypeId
                (db1, rn.1, Except.ok (appointment', rn.2))

/-- `_build_cancellation_message` (lines 552–569). -/
def _build_cancellation_message (db : DB) (appointment : Appointment) :
    NotifTitle × NotifMessage :=
  let doctorName := userName db appointment.doctorId "الطبيب"
  (NotifTitle.yourAppointmentCancelled,
    NotifMessage.staffCancelledMsg doctorName appointment.date appointment.time
      (clinicNameOf db appointment.clinicId))

/-- `_notify_patient_cancellation` (lines 590–661): the in-app notification
is created first and is NOT wrapped in `try/except`, so a uniqueness
violation propagates; the email and SMS attempts that follow are each
guarded and can never raise (they have no effect on the modelled state). -/
def _notify_patient_cancellation (db : DB) (ns : List AppointmentNotification)
    (appointment : Appointment) (staffId : Nat) :
    Except ServiceError (List AppointmentNotification) :=
  let (title, message) := _build_cancellation_message db appointment
  match createNotification ns
      { patientId := appointment.patientId
        appointmentId := some appointment.id
        notificationType := NotifType.APPOINTMENT_CANCELLED
        title := title
        message := message
        cancelledByStaffId := some staffId
        isDelivered := true } with
  | Except.error _ => Except.error ServiceError.integrityError
  | Except.ok ns' =>
    -- Email: only for a verified address, wrapped in try/except — never raises.
    -- SMS: behind the `_is_sms_configured` gate, wrapped — never raises.
    Except.ok ns'

/-- `cancel_appointment_by_staff` (lines 664–716), including its post-commit
dispatch.  The status update commits before the dispatch runs; an integrity
error raised by the unguarded in-app create propagates to the caller while
the CANCELLED status stays committed. -/
def cancel_appointment_by_staff (db : DB) (ns : List AppointmentNotification)
    (appointmentId : Nat) (staff : ClinicStaff) :
    DB × List AppointmentNotification × Except ServiceError Bool :=
  match db.appointments.find? (fun a => decide (a.id = appointmentId)) with
  | none => (db, ns, Except.error (ServiceError.valueError "Appointment not found."))
  | some appointment =>
    -- Tenant isolation: staff can only cancel appointments at their own clinic
    if appointment.clinicId ≠ staff.clinicId then
      (db, ns, Except.error (ServiceError.valueError
        "You are not authorised to cancel appointments at this clinic."))
    else if appointment.status ∈ _TERMINAL_STATUSES then
      (db, ns, Except.error (ServiceError.valueError "Cannot cancel this appointment."))
    else
      let appointment' := { appointment with status := Status.CANCELLED }
      let db' := setAppointmentStatus db appointment.id Status.CANCELLED
      match _notify_patient_cancellation db' ns appointment' staff.id with
      | Except.ok ns' => (db', ns', Except.ok true)
      | Except.error e => (db', ns, Except.error e)

/-! ## Claim-level vocabulary -/

/-- Two half-open `(start, end)` intervals do not overlap. -/
def intervalsDisjoint (r s : Nat × Nat) : Prop := r.2 ≤ s.1 ∨ s.2 ≤ r.1

/-- The duration of an appointment's own appointment type (0 when the type
is absent). -/
def apptDuration (db : DB) (a : Appointment) : Nat :=
  match a.appointmentTypeId.bind
      (fun tid => db.appointmentTypes.find? (fun t => decide (t.id = tid))) with
  | some t => t.durationMinutes
  | none => 0

/-- The `(start, end)` interval an appointment occupies, with the end
computed from its own appointment-type duration. -/
def apptInterval (db : DB) (a : Appointment) : Nat × Nat :=
  (a.time, a.time + apptDuration db a)

/-- The end of a booked interval as the specification words it: the
appointment's own appointment-type duration when the type is present, else
the caller's requested duration.  (The code additionally falls back when the
stored duration is zero; the two agree whenever every stored duration is
positive, as the data model requires.) -/
def claimedBookedEnd (db : DB) (durationMinutes : Nat) (a : Appointment) : Nat :=
  _add_minutes_to_time a.time
    (match a.appointmentTypeId.bind
        (fun tid => db.appointmentTypes.find? (fun t => decide (t.id = tid))) with
      | some t => t.durationMinutes
      | none => durationMinutes)

/-- Well-formedness of the relational state, as the data model guarantees
it: appointment-type durations are positive, primary keys are unique,
availability end times are times of day, and every appointment id is below
the id counter. -/
def WFDB (db : DB) : Prop :=
  (∀ t ∈ db.appointmentTypes, 0 < t.durationMinutes) ∧
  (db.appointmentTypes.map (fun t => t.id)).Nodup ∧
  (∀ b ∈ db.availabilities, b.endTime < 1440) ∧
  (∀ a ∈ db.appointments, a.id < db.nextAppointmentId) ∧
  (db.appointments.map (fun a => a.id)).Nodup

/-- The arguments of one `book_appointment` call, together with the wall
clock at the moment of the call. -/
structure BookRequest where
  today : Nat
  nowTime : Nat
  patientId : Nat
  doctorId : Nat
  clinicId : Nat
  appointmentTypeId : Nat
  date : Nat
  time : Nat
  reason : String
deriving DecidableEq, Repr

/-- `book_appointment` applied to a request record. -/
def bookReq (db : DB) (r : BookRequest) : Except BookingError (DB × Appointment) :=
  book_appointment db r.today r.nowTime r.patientId r.doctorId r.clinicId
    r.appointmentTypeId r.date r.time r.reason

/-- Run a sequence of `book()` calls in the order the doctor-day lock
serializes them; `some` exactly when every call returns success. -/
def runBooks : DB → List BookRequest → Option DB
  | db, [] => some db
  | db, r :: rs =>
    match bookReq db r with
    | Except.ok (db', _) => runBooks db' rs
    | Except.error _ => none

/-- How many notification rows exist for one (appointment, type) pair. -/
def pairCount (ns : List AppointmentNotification) (ap : Nat) (ty : NotifType) : Nat :=
  (ns.filter (fun m =>
    decide (m.appointmentId = some ap ∧ m.notificationType = ty))).length

/-- At most one notification row per (appointment, type) pair. -/
def UniquePerPair (ns : List AppointmentNotification) : Prop :=
  ∀ (ap : Nat) (ty : NotifType), pairCount ns ap ty ≤ 1

/-- A row whose appointment type resolves to a stored type with a positive
duration and whose interval stays inside the day — true of every row the
booking service creates. -/
def GoodRow (db : DB) (a : Appointment) : Prop :=
  ∃ ty ∈ db.appointmentTypes, a.appointmentTypeId = some ty.id ∧
    0 < ty.durationMinutes ∧ a.time + ty.durationMinutes < 1440

/-- Two appointments of the same doctor on the same date occupy disjoint
intervals. -/
def NoOverlapPair (db : DB) (a b : Appointment) : Prop :=
  a.doctorId = b.doctorId → a.date = b.date →
    intervalsDisjoint (apptInterval db a) (apptInterval db b)

/-! ## Concrete instances

Small databases used to evaluate the services on concrete inputs: a doctor
(user 1) with a Monday 09:00–12:00 availability block at clinic 1 and a
30-minute appointment type, plus scenario-specific rows.  Date 0 is a
Monday (`0 % 7 = 0`); 09:00 is minute 540, 12:00 is minute 720. -/

/-- Doctor 1, clinic 1, Monday 09:00–12:00, 30-minute type, no
appointments. -/
def dbMonday : DB :=
  { users := []
    clinics := [{ id := 1, name := "Main Clinic", isActive := true }]
    clinicStaff := []
    availabilities :=
      [{ doctorId := 1, clinicId := 1, dayOfWeek := 0, startTime := 540,
         endTime := 720, isActive := true }]
    appointmentTypes :=
      [{ id := 1, doctorId := 1, clinicId := 1, durationMinutes := 30, isActive := true }]
    appointments := []
    nextAppointmentId := 1 }

/-- The six Monday slots with the given availability flag for 10:00. -/
def mondaySlots (tenAvailable : Bool) : List Slot :=
  [{ time := 540, endTime := 570, isAvailable := true },
   { time := 570, endTime := 600, isAvailable := true },
   { time := 600, endTime := 630, isAvailable := tenAvailable },
   { time := 630, endTime := 660, isAvailable := true },
   { time := 660, endTime := 690, isAvailable := true },
   { time := 690, endTime := 720, isAvailable := true }]

/-- `dbMonday` after booking the 10:00 slot (minute 600) for patient 10. -/
def dbMondayBooked : DB :=
  { dbMonday with
    appointments :=
      [{ id := 1, patientId := 10, clinicId := 1, doctorId := some 1,
         appointmentTypeId := some 1, date := 0, time := 600,
         status := Status.CONFIRMED, reason := "", patientEditCount := 0,
         createdById := some 10 }]
    nextAppointmentId := 2 }

/-- A cancellable appointment for the patient-cancel failing input: patient
10 owns appointment 1, CONFIRMED, scheduled for the Monday one week out
(date 7, 10:00), well outside the 2-hour window at wall clock (0, 0). -/
def dbCancelInput : DB :=
  { dbMonday with
    appointments :=
      [{ id := 1, patientId := 10, clinicId := 1, doctorId := some 1,
         appointmentTypeId := some 1, date := 7, time := 600,
         status := Status.CONFIRMED, reason := "", patientEditCount := 0,
         createdById := some 10 }]
    nextAppointmentId := 2 }

/-- A secretary of clinic 1 (user 7). -/
def secretaryStaff : ClinicStaff :=
  { id := 5, clinicId := 1, userId := 7, role := "SECRETARY", isActive := true }

/-- A notification row already recorded for (appointment 1,
APPOINTMENT_CANCELLED) — as the merged patient-edit notifier produces. -/
def existingCancelNotification : AppointmentNotification :=
  { patientId := 7
    appointmentId := some 1
    notificationType := NotifType.APPOINTMENT_CANCELLED
    title := NotifTitle.cancelledByPatient
    message := NotifMessage.patientCancelledMsg "مريض" 7 600 "Main Clinic"
    cancelledByStaffId := none
    isDelivered := true }

/-- Database for the edit scenarios: patient 10 owns appointment 1 with
doctor 2, clinic 1, type 1, scheduled Friday (date 5) 10:00; doctor 2 has a
Friday 09:00–12:00 block; user 7 is an active secretary of clinic 1. -/
def dbEdit : DB :=
  { users := []
    clinics := [{ id := 1, name := "Main Clinic", isActive := true }]
    clinicStaff := [secretaryStaff]
    availabilities :=
      [{ doctorId := 2, clinicId := 1, dayOfWeek := 5, startTime := 540,
         endTime := 720, isActive := true }]
    appointmentTypes :=
      [{ id := 1, doctorId := 2, clinicId := 1, durationMinutes := 30, isActive := true }]
    appointments :=
      [{ id := 1, patientId := 10, clinicId := 1, doctorId := some 2,
         appointmentTypeId := some 1, date := 5, time := 600,
         status := Status.CONFIRMED, reason := "", patientEditCount := 0,
         createdById := some 10 }]
    nextAppointmentId := 2 }

/-- The booking request for the 10:00 Monday slot by patient 10, made at
wall clock (0, 0). -/
def reqMonday600 : BookRequest :=
  { today := 0, nowTime := 0, patientId := 10, doctorId := 1, clinicId := 1,
    appointmentTypeId := 1, date := 0, time := 600, reason := "" }

/-- The row booking `reqMonday600` on `dbMonday` creates. -/
def apptMonday600 : Appointment :=
  { id := 1, patientId := 10, clinicId := 1, doctorId := some 1,
    appointmentTypeId := some 1, date := 0, time := 600,
    status := Status.CONFIRMED, reason := "", patientEditCount := 0,
    createdById := some 10 }

/-- `dbMondayBooked` after the patient cancels appointment 1. -/
def dbMondayCancelled : DB :=
  { dbMonday with
    appointments := [{ apptMonday600 with status := Status.CANCELLED }]
    nextAppointmentId := 2 }

/-- A concrete notification maker for the fan-out lemma instances: one
cancellation notification for appointment `k` addressed to the given
recipient. -/
def mkCancelNotif (k : Nat) : Nat → AppointmentNotification := fun uid =>
  { patientId := uid
    appointmentId := some k
    notificationType := NotifType.APPOINTMENT_CANCELLED
    title := NotifTitle.cancelledByPatient
    message := NotifMessage.patientCancelledMsg "مريض" 0 600 "Main Clinic"
    cancelledByStaffId := none
    isDelivered := true }

/-! ## Basic lemmas about the slot generator -/

theorem insertByStart_perm (b : DoctorAvailability) (l : List DoctorAvailability) :
    List.Perm (insertByStart b l) (b :: l) := by
  induction l with
  | nil => simp [insertByStart]
  | cons x xs ih =>
    simp only [insertByStart]
    split
    · exact List.Perm.refl _
    · exact (List.Perm.cons x ih).trans (List.Perm.swap b x xs)

theorem sortByStartTime_perm (l : List DoctorAvailability) :
    List.Perm (sortByStartTime l) l := by
  induction l with
  | nil => simp [sortByStartTime]
  | cons x xs ih =>
    exact (insertByStart_perm x (sortByStartTime xs)).trans (List.Perm.cons x ih)

theorem mem_sortByStartTime {x : DoctorAvailability} {l : List DoctorAvailability} :
    x ∈ sortByStartTime l ↔ x ∈ l :=
  (sortByStartTime_perm l).mem_iff

theorem insertByStart_pairwise {b : DoctorAvailability} {l : List DoctorAvailability}
    (hl : l.Pairwise (fun x y => x.startTime ≤ y.startTime)) :
    (insertByStart b l).Pairwise (fun x y => x.startTime ≤ y.startTime) := by
  induction l with
  | nil => simp [insertByStart]
  | cons x xs ih =>
    rw [List.pairwise_cons] at hl
    simp only [insertByStart]
    split
    · refine List.pairwise_cons.mpr ⟨?_, List.pairwise_cons.mpr hl⟩
      intro y hy
      rcases List.mem_cons.mp hy with h | h
      · subst h; omega
      · exact le_trans (by omega) (hl.1 y h)
    · refine List.pairwise_cons.mpr ⟨?_, ih hl.2⟩
      intro y hy
      rcases List.mem_cons.mp ((insertByStart_perm b xs).mem_iff.mp hy) with h | h
      · subst h; omega
      · exact hl.1 y h

theorem sortByStartTime_pairwise (l : List DoctorAvailability) :
    (sortByStartTime l).Pairwise (fun x y => x.startTime ≤ y.startTime) := by
  induction l with
  | nil => simp [sortByStartTime]
  | cons x xs ih => exact insertByStart_pairwise ih

theorem is_slot_booked_eq_false_iff {ss se : Nat} {ranges : List (Nat × Nat)} :
    _is_slot_booked ss se ranges = false ↔ ∀ r ∈ ranges, ¬(r.1 < se ∧ r.2 > ss) := by
  simp [_is_slot_booked, List.any_eq_false]

theorem mem_bookedRanges {db : DB} {doctorId : Option Nat} {targetDate dur : Nat}
    {r : Nat × Nat} :
    r ∈ bookedRanges db doctorId targetDate dur ↔
      ∃ a ∈ db.appointments, a.doctorId = doctorId ∧ a.date = targetDate ∧
        (a.status = Status.CONFIRMED ∨ a.status = Status.COMPLETED) ∧
        r = (a.time, _add_minutes_to_time a.time (bookedDuration db dur a)) := by
  simp only [bookedRanges, List.mem_map, List.mem_filter, decide_eq_true_eq]
  constructor
  · rintro ⟨a, ⟨ha, h1, h2, h3⟩, rfl⟩
    exact ⟨a, ha, h1, h2, h3, rfl⟩
  · rintro ⟨a, ha, h1, h2, h3, rfl⟩
    exact ⟨a, ⟨ha, h1, h2, h3⟩, rfl⟩

theorem slotLoop_mem {booked : List (Nat × Nat)} {duration blockEnd : Nat} :
    ∀ {fuel current : Nat} {s : Slot},
      s ∈ slotLoop booked fuel current blockEnd duration →
      s.endTime = s.time + duration ∧ s.time + duration ≤ blockEnd ∧
        current ≤ s.time ∧
        s.isAvailable = !_is_slot_booked s.time (s.time + duration) booked := by
  intro fuel
  induction fuel with
  | zero => intro current s h; simp [slotLoop] at h
  | succ n ih =>
    intro current s h
    simp only [slotLoop] at h
    split at h
    · rcases List.mem_cons.mp h with rfl | h
      · exact ⟨rfl, by assumption, le_refl _, rfl⟩
      · obtain ⟨h1, h2, h3, h4⟩ := ih h
        exact ⟨h1, h2, by omega, h4⟩
    · simp at h

theorem slotLoop_eq_range (booked : List (Nat × Nat)) {duration : Nat}
    (blockEnd : Nat) (hdur : 0 < duration) :
    ∀ fuel current, blockEnd - current < fuel →
      slotLoop booked fuel current blockEnd duration =
        (List.range ((blockEnd - current) / duration)).map (fun i =>
          { time := current + i * duration
            endTime := current + i * duration + duration
            isAvailable := !_is_slot_booked (current + i * duration)
              (current + i * duration + duration) booked }) := by
  intro fuel
  induction fuel with
  | zero => intro current h; omega
  | succ n ih =>
    intro current h
    simp only [slotLoop]
    split
    · have hle : duration ≤ blockEnd - current := by omega
      have hdiv : (blockEnd - current) / duration =
          (blockEnd - current - duration) / duration + 1 :=
        Nat.div_eq_sub_div hdur hle
      have hsub : blockEnd - current - duration = blockEnd - (current + duration) := by
        omega
      rw [hdiv, hsub, List.range_succ_eq_map, List.map_cons, List.map_map]
      have hrec : blockEnd - (current + duration) < n := by omega
      rw [ih (current + duration) hrec]
      refine congr_arg₂ List.cons (by simp) (List.map_congr_left ?_)
      intro i _
      have hx : current + duration + i * duration = current + (i + 1) * duration := by ring
      simp [Function.comp, Nat.succ_eq_add_one, hx]
    · have : blockEnd - current < duration := by omega
      rw [Nat.div_eq_of_lt this]
      simp

theorem mem_generate {db : DB} {doctorId : Option Nat} {clinicId targetDate dur : Nat}
    {s : Slot} :
    s ∈ generate_slots_for_date db doctorId clinicId targetDate dur ↔
      ∃ b ∈ db.availabilities, some b.doctorId = doctorId ∧ b.clinicId = clinicId ∧
        b.dayOfWeek = dayOfWeek targetDate ∧ b.isActive = true ∧
        s ∈ slotLoop (bookedRanges db doctorId targetDate dur)
          (b.endTime + 1) b.startTime b.endTime dur := by
  simp only [generate_slots_for_date, List.mem_flatMap, mem_sortByStartTime,
    List.mem_filter, decide_eq_true_eq]
  constructor
  · rintro ⟨b, ⟨hb, h1, h2, h3, h4⟩, hs⟩
    exact ⟨b, hb, h1, h2, h3, h4, hs⟩
  · rintro ⟨b, hb, h1, h2, h3, h4, hs⟩
    exact ⟨b, ⟨hb, h1, h2, h3, h4⟩, hs⟩

/-- Every generated slot has a duration-sized interval inside some matching
availability block, and its availability flag is exactly the negated booked
check. -/
theorem generate_slot_spec {db : DB} {doctorId : Option Nat}
    {clinicId targetDate dur : Nat} {s : Slot}
    (h : s ∈ generate_slots_for_date db doctorId clinicId targetDate dur) :
    s.endTime = s.time + dur ∧
      s.isAvailable = !_is_slot_booked s.time (s.time + dur)
        (bookedRanges db doctorId targetDate dur) ∧
      ∃ b ∈ db.availabilities, some b.doctorId = doctorId ∧
        b.isActive = true ∧ s.time + dur ≤ b.endTime := by
  obtain ⟨b, hb, h1, h2, h3, h4, hs⟩ := mem_generate.mp h
  obtain ⟨he, hle, _, hav⟩ := slotLoop_mem hs
  exact ⟨he, hav, b, hb, h1, h4, hle⟩

/-! ## Lemmas about `book_appointment` -/

/-- Everything a successful `book_appointment` run establishes. -/
theorem book_ok_spec {db : DB} {today nowTime patientId doctorId clinicId
    appointmentTypeId appointmentDate appointmentTime : Nat} {reason : String}
    {db' : DB} {appt : Appointment}
    (h : book_appointment db today nowTime patientId doctorId clinicId
      appointmentTypeId appointmentDate appointmentTime reason =
      Except.ok (db', appt)) :
    ¬appointmentDate < today ∧
    ¬(appointmentDate = today ∧ appointmentTime ≤ nowTime) ∧
    (∃ clinic, db.clinics.find? (fun c => decide (c.id = clinicId ∧ c.isActive = true)) =
      some clinic) ∧
    ∃ ty, db.appointmentTypes.find? (fun t =>
        decide (t.id = appointmentTypeId ∧ t.doctorId = doctorId ∧
          t.clinicId = clinicId ∧ t.isActive = true)) = some ty ∧
      ∃ s, (generate_slots_for_date db (some doctorId) clinicId appointmentDate
          ty.durationMinutes).find? (fun x => decide (x.time = appointmentTime)) = some s ∧
        s.isAvailable = true ∧
        appt = { id := db.nextAppointmentId, patientId := patientId, clinicId := clinicId,
                 doctorId := some doctorId, appointmentTypeId := some ty.id,
                 date := appointmentDate, time := appointmentTime,
                 status := Status.CONFIRMED, reason := reason, patientEditCount := 0,
                 createdById := some patientId } ∧
        db' = { db with
                appointments := db.appointments ++ [appt]
                nextAppointmentId := db.nextAppointmentId + 1 } := by
  unfold book_appointment at h
  split at h
  · simp at h
  rename_i hdate
  split at h
  · simp at h
  rename_i htime
  dsimp only at h
  split at h
  · simp at h
  rename_i clinic hclinic
  split at h
  · simp at h
  rename_i ty hty
  split at h
  · simp at h
  rename_i s hs
  split at h
  · simp at h
  rename_i havail
  split at h
  · simp at h
  rename_i s2 hs2
  split at h
  · simp at h
  rename_i havail2
  rw [Except.ok.injEq, Prod.mk.injEq] at h
  obtain ⟨hdb, happt⟩ := h
  have hcid : clinic.id = clinicId := by
    have hp := List.find?_some hclinic
    simp only [decide_eq_true_eq] at hp
    exact hp.1
  refine ⟨hdate, htime, ⟨clinic, hclinic⟩, ty, hty, s, hs, ?_, ?_, ?_⟩
  · simpa using havail
  · rw [← happt, hcid]
  · rw [← hdb, ← happt]

/-- Converse direction: the stated conditions force `book_appointment` to
succeed with the explicitly constructed row. -/
theorem book_ok_intro {db : DB} {today nowTime patientId doctorId clinicId
    appointmentTypeId appointmentDate appointmentTime : Nat} {reason : String}
    {clinic : Clinic} {ty : AppointmentType} {s : Slot}
    (hdate : ¬appointmentDate < today)
    (htime : ¬(appointmentDate = today ∧ appointmentTime ≤ nowTime))
    (hclinic : db.clinics.find? (fun c => decide (c.id = clinicId ∧ c.isActive = true)) =
      some clinic)
    (hty : db.appointmentTypes.find? (fun t =>
        decide (t.id = appointmentTypeId ∧ t.doctorId = doctorId ∧
          t.clinicId = clinicId ∧ t.isActive = true)) = some ty)
    (hs : (generate_slots_for_date db (some doctorId) clinicId appointmentDate
        ty.durationMinutes).find? (fun x => decide (x.time = appointmentTime)) = some s)
    (havail : s.isAvailable = true) :
    book_appointment db today nowTime patientId doctorId clinicId appointmentTypeId
        appointmentDate appointmentTime reason =
      Except.ok
        ({ db with
            appointments := db.appointments ++
              [{ id := db.nextAppointmentId, patientId := patientId,
                 clinicId := clinic.id, doctorId := some doctorId,
                 appointmentTypeId := some ty.id, date := appointmentDate,
                 time := appointmentTime, status := Status.CONFIRMED, reason := reason,
                 patientEditCount := 0, createdById := some patientId }]
            nextAppointmentId := db.nextAppointmentId + 1 },
          { id := db.nextAppointmentId, patientId := patientId, clinicId := clinic.id,
            doctorId := some doctorId, appointmentTypeId := some ty.id,
            date := appointmentDate, time := appointmentTime, status := Status.CONFIRMED,
            reason := reason, patientEditCount := 0, createdById := some patientId }) := by
  unfold book_appointment
  rw [if_neg hdate, if_neg htime, hclinic, hty]
  dsimp only
  rw [hs]
  dsimp only
  simp [havail]

/-! ## Lemmas about durations and the no-double-booking invariant -/

theorem find?_type_by_id {l : List AppointmentType}
    (hnd : (l.map (fun t => t.id)).Nodup) {t : AppointmentType} (ht : t ∈ l) :
    l.find? (fun x => decide (x.id = t.id)) = some t := by
  induction l with
  | nil => simp at ht
  | cons x xs ih =>
    rw [List.map_cons, List.nodup_cons] at hnd
    rcases List.mem_cons.mp ht with rfl | hmem
    · simp [List.find?]
    · have hne : x.id ≠ t.id := by
        intro hEq
        exact hnd.1 (hEq ▸ List.mem_map_of_mem (fun t => t.id) hmem)
      have hdec : (decide (x.id = t.id)) = false := by simp [hne]
      simp only [List.find?, hdec]
      exact ih hnd.2 hmem

theorem apptDuration_eq {db : DB}
    (hnd : (db.appointmentTypes.map (fun t => t.id)).Nodup)
    {a : Appointment} {ty : AppointmentType} (hty : ty ∈ db.appointmentTypes)
    (hid : a.appointmentTypeId = some ty.id) :
    apptDuration db a = ty.durationMinutes := by
  simp [apptDuration, hid, Option.bind, find?_type_by_id hnd hty]

theorem bookedDuration_eq {db : DB} {dur : Nat}
    (hnd : (db.appointmentTypes.map (fun t => t.id)).Nodup)
    {a : Appointment} {ty : AppointmentType} (hty : ty ∈ db.appointmentTypes)
    (hid : a.appointmentTypeId = some ty.id) (hpos : 0 < ty.durationMinutes) :
    bookedDuration db dur a = ty.durationMinutes := by
  simp [bookedDuration, hid, Option.bind, find?_type_by_id hnd hty]
  omega

theorem book_preserves_wf {db db' : DB} {appt : Appointment}
    {today nowTime patientId doctorId clinicId appointmentTypeId
      appointmentDate appointmentTime : Nat} {reason : String}
    (hwf : WFDB db)
    (h : book_appointment db today nowTime patientId doctorId clinicId
      appointmentTypeId appointmentDate appointmentTime reason =
      Except.ok (db', appt)) : WFDB db' := by
  obtain ⟨_, _, _, ty, hty, s, hs, _, happt, hdb⟩ := book_ok_spec h
  obtain ⟨h1, h2, h3, h4, h5⟩ := hwf
  have hTypes : db'.appointmentTypes = db.appointmentTypes := by rw [hdb]
  have hAvail : db'.availabilities = db.availabilities := by rw [hdb]
  have hApts : db'.appointments = db.appointments ++ [appt] := by rw [hdb]
  have hNext : db'.nextAppointmentId = db.nextAppointmentId + 1 := by rw [hdb]
  have hId : appt.id = db.nextAppointmentId := by rw [happt]
  refine ⟨by rw [hTypes]; exact h1, by rw [hTypes]; exact h2,
    by rw [hAvail]; exact h3, ?_, ?_⟩
  · intro a ha
    rw [hApts] at ha
    rw [hNext]
    rcases List.mem_append.mp ha with ha | ha
    · have := h4 a ha
      omega
    · rcases List.mem_singleton.mp ha with rfl
      omega
  · rw [hApts]
    simp only [List.map_append, List.nodup_append, List.map_cons, List.map_nil]
    refine ⟨h5, by simp, ?_⟩
    intro x hx hx2
    obtain ⟨a, ha, rfl⟩ := List.mem_map.mp hx
    have hlt := h4 a ha
    rcases List.mem_cons.mp hx2 with hEq | hF
    · rw [hId] at hEq
      omega
    · simp at hF

/-- The row a successful booking creates is CONFIRMED and well-formed. -/
theorem book_new_row_good {db db' : DB} {appt : Appointment}
    {today nowTime patientId doctorId clinicId appointmentTypeId
      appointmentDate appointmentTime : Nat} {reason : String}
    (hwf : WFDB db)
    (h : book_appointment db today nowTime patientId doctorId clinicId
      appointmentTypeId appointmentDate appointmentTime reason =
      Except.ok (db', appt)) :
    appt.status = Status.CONFIRMED ∧ GoodRow db appt := by
  obtain ⟨_, _, _, ty, hty, s, hs, havail, happt, hdb⟩ := book_ok_spec h
  obtain ⟨hdurPos, hnd, hends, _, _⟩ := hwf
  have htyMem : ty ∈ db.appointmentTypes := List.mem_of_find?_eq_some hty
  have hsP := List.find?_some hs
  simp only [decide_eq_true_eq] at hsP
  have hsMem : s ∈ generate_slots_for_date db (some doctorId) clinicId appointmentDate
      ty.durationMinutes := List.mem_of_find?_eq_some hs
  obtain ⟨hend, hflag, b, hb, _, _, hbe⟩ := generate_slot_spec hsMem
  have hbound : s.time + ty.durationMinutes < 1440 := lt_of_le_of_lt hbe (hends b hb)
  refine ⟨by rw [happt], ty, htyMem, by rw [happt], hdurPos ty htyMem, ?_⟩
  rw [happt]
  dsimp only
  omega

/-- The row a successful booking creates keeps out of the way of every
well-formed CONFIRMED/COMPLETED row of the same doctor and date that was
already stored. -/
theorem book_step_disjoint {db db' : DB} {appt : Appointment}
    {today nowTime patientId doctorId clinicId appointmentTypeId
      appointmentDate appointmentTime : Nat} {reason : String}
    (hwf : WFDB db)
    (h : book_appointment db today nowTime patientId doctorId clinicId
      appointmentTypeId appointmentDate appointmentTime reason =
      Except.ok (db', appt))
    {e : Appointment} (he : e ∈ db.appointments)
    (hst : e.status = Status.CONFIRMED ∨ e.status = Status.COMPLETED)
    (hgood : GoodRow db e) :
    NoOverlapPair db' e appt := by
  obtain ⟨_, _, _, ty, hty, s, hs, havail, happt, hdb⟩ := book_ok_spec h
  obtain ⟨hdurPos, hnd, hends, _, _⟩ := hwf
  have htyP := List.find?_some hty
  simp only [decide_eq_true_eq] at htyP
  have htyMem : ty ∈ db.appointmentTypes := List.mem_of_find?_eq_some hty
  have hsP := List.find?_some hs
  simp only [decide_eq_true_eq] at hsP
  have hsMem : s ∈ generate_slots_for_date db (some doctorId) clinicId appointmentDate
      ty.durationMinutes := List.mem_of_find?_eq_some hs
  obtain ⟨hend, hflag, b, hb, _, _, hbe⟩ := generate_slot_spec hsMem
  have hbound : s.time + ty.durationMinutes < 1440 := lt_of_le_of_lt hbe (hends b hb)
  obtain ⟨tyE, htyE, hidE, hposE, hboundE⟩ := hgood
  have htypesEq : db'.appointmentTypes = db.appointmentTypes := by rw [hdb]
  intro hdoc hdate
  -- `e` contributed a booked range that the chosen slot avoided
  have hdocE : e.doctorId = some doctorId := by rw [hdoc, happt]
  have hdateE : e.date = appointmentDate := by rw [hdate, happt]
  have hrange : (e.time, _add_minutes_to_time e.time
      (bookedDuration db ty.durationMinutes e)) ∈
      bookedRanges db (some doctorId) appointmentDate ty.durationMinutes :=
    mem_bookedRanges.mpr ⟨e, he, hdocE, hdateE, hst, rfl⟩
  have hbookedE : bookedDuration db ty.durationMinutes e = tyE.durationMinutes :=
    bookedDuration_eq hnd htyE hidE hposE
  have hwrapE : _add_minutes_to_time e.time tyE.durationMinutes =
      e.time + tyE.durationMinutes := Nat.mod_eq_of_lt hboundE
  have hnb : _is_slot_booked s.time (s.time + ty.durationMinutes)
      (bookedRanges db (some doctorId) appointmentDate ty.durationMinutes) = false := by
    cases hbk : _is_slot_booked s.time (s.time + ty.durationMinutes)
      (bookedRanges db (some doctorId) appointmentDate ty.durationMinutes)
    · rfl
    · rw [hbk] at hflag
      rw [hflag] at havail
      simp at havail
  have hnover := (is_slot_booked_eq_false_iff.mp hnb) _ hrange
  rw [hbookedE, hwrapE] at hnover
  simp only [not_and, not_lt] at hnover
  -- intervals in the final state
  have hIe : apptInterval db' e = (e.time, e.time + tyE.durationMinutes) := by
    have hdE : apptDuration db' e = tyE.durationMinutes :=
      apptDuration_eq (by rw [htypesEq]; exact hnd) (by rw [htypesEq]; exact htyE) hidE
    unfold apptInterval
    rw [hdE]
  have hIa : apptInterval db' appt = (s.time, s.time + ty.durationMinutes) := by
    unfold apptInterval
    have hda : apptDuration db' appt = ty.durationMinutes :=
      apptDuration_eq (by rw [htypesEq]; exact hnd) (by rw [htypesEq]; exact htyMem)
        (by rw [happt])
    rw [hda, happt]
    simp [hsP]
  rw [hIe, hIa]
  unfold intervalsDisjoint
  simp only
  by_cases hcase : e.time < s.time + ty.durationMinutes
  · exact Or.inl (hnover hcase)
  · exact Or.inr (by omega)

theorem apptDuration_congr {db db' : DB}
    (h : db.appointmentTypes = db'.appointmentTypes) (a : Appointment) :
    apptDuration db a = apptDuration db' a := by
  unfold apptDuration
  rw [h]

theorem goodRow_congr {db db' : DB}
    (h : db.appointmentTypes = db'.appointmentTypes) {a : Appointment}
    (hg : GoodRow db a) : GoodRow db' a := by
  unfold GoodRow at hg ⊢
  rw [← h]
  exact hg

theorem noOverlapPair_congr {db db' : DB}
    (h : db.appointmentTypes = db'.appointmentTypes) {a b : Appointment}
    (hno : NoOverlapPair db a b) : NoOverlapPair db' a b := by
  intro hdoc hdate
  have h2 := hno hdoc hdate
  unfold apptInterval at h2 ⊢
  rw [apptDuration_congr h a, apptDuration_congr h b] at h2
  exact h2

/-- The full invariant carried through a successful sequence of bookings:
well-formedness is preserved, the static tables are unchanged, the run only
appends rows, every appended row is a CONFIRMED well-formed row, every
appended row avoids every good CONFIRMED/COMPLETED row that preceded the
run, and the appended rows are pairwise non-overlapping. -/
theorem runBooks_spec :
    ∀ (reqs : List BookRequest) (db dbF : DB), WFDB db →
      runBooks db reqs = some dbF →
      WFDB dbF ∧
      dbF.appointmentTypes = db.appointmentTypes ∧
      dbF.availabilities = db.availabilities ∧
      ∃ tail, dbF.appointments = db.appointments ++ tail ∧
        (∀ a ∈ tail, a.status = Status.CONFIRMED ∧ GoodRow db a) ∧
        (∀ e ∈ db.appointments,
          (e.status = Status.CONFIRMED ∨ e.status = Status.COMPLETED) →
          GoodRow db e → ∀ a ∈ tail, NoOverlapPair dbF e a) ∧
        tail.Pairwise (NoOverlapPair dbF) := by
  intro reqs
  induction reqs with
  | nil =>
    intro db dbF hwf hrun
    simp only [runBooks, Option.some.injEq] at hrun
    subst hrun
    exact ⟨hwf, rfl, rfl, [], by simp, by simp, by simp, List.Pairwise.nil⟩
  | cons r rs ih =>
    intro db dbF hwf hrun
    simp only [runBooks] at hrun
    split at hrun
    case h_2 => exact absurd hrun (by simp)
    case h_1 =>
      rename_i x db1 appt heq
      have hbook := heq
      unfold bookReq at hbook
      have hwf1 : WFDB db1 := book_preserves_wf hwf hbook
      obtain ⟨hwfF, hTypesF, hAvailF, tail1, hAptsF, hGood1, hAvoid1, hPW1⟩ :=
        ih db1 dbF hwf1 hrun
      obtain ⟨hconfN, hgoodN⟩ := book_new_row_good hwf hbook
      obtain ⟨_, _, _, ty, hty, s, hs, havail, happt, hdb1⟩ := book_ok_spec hbook
      have hApts1 : db1.appointments = db.appointments ++ [appt] := by rw [hdb1]
      have hTypes1 : db1.appointmentTypes = db.appointmentTypes := by rw [hdb1]
      have hAvail1 : db1.availabilities = db.availabilities := by rw [hdb1]
      have hTypesF2 : dbF.appointmentTypes = db.appointmentTypes := by
        rw [hTypesF, hTypes1]
      have hAvailF2 : dbF.availabilities = db.availabilities := by
        rw [hAvailF, hAvail1]
      have htype1F : db1.appointmentTypes = dbF.appointmentTypes := hTypesF.symm
      refine ⟨hwfF, hTypesF2, hAvailF2, appt :: tail1, ?_, ?_, ?_, ?_⟩
      · rw [hAptsF, hApts1, List.append_assoc, List.singleton_append]
      · intro a ha
        rcases List.mem_cons.mp ha with rfl | ha
        · exact ⟨hconfN, hgoodN⟩
        · obtain ⟨hc, hg⟩ := hGood1 a ha
          exact ⟨hc, goodRow_congr (by rw [hTypes1]) hg⟩
      · intro e he hst hgood a ha
        rcases List.mem_cons.mp ha with rfl | ha
        · exact noOverlapPair_congr htype1F (book_step_disjoint hwf hbook he hst hgood)
        · have he1 : e ∈ db1.appointments := by
            rw [hApts1]
            exact List.mem_append_left _ he
          have hg1 : GoodRow db1 e := goodRow_congr (by rw [hTypes1]) hgood
          exact hAvoid1 e he1 hst hg1 a ha
      · rw [List.pairwise_cons]
        constructor
        · intro b hb
          have heA : appt ∈ db1.appointments := by
            rw [hApts1]
            exact List.mem_append_right _ (List.mem_singleton.mpr rfl)
          have hgA : GoodRow db1 appt := goodRow_congr (by rw [hTypes1]) hgoodN
          exact hAvoid1 appt heA (Or.inl hconfN) hgA b hb
        · exact hPW1

/-! ## Claim theorems -/

/-- **C1**: for any doctor and date, after any sequence of `book()` calls
that each return success, the set of successfully created non-cancelled
appointments has pairwise non-overlapping (start, end) intervals, including
across different clinics: every created row is CONFIRMED (so none is
cancelled) and any two created rows for the same doctor and date occupy
disjoint intervals. -/
theorem claim_C1_no_double_booking {db0 dbF : DB} {reqs : List BookRequest}
    (hwf : WFDB db0) (hrun : runBooks db0 reqs = some dbF) :
    ∃ created, dbF.appointments = db0.appointments ++ created ∧
      (∀ a ∈ created, a.status = Status.CONFIRMED) ∧
      created.Pairwise (NoOverlapPair dbF) := by
  obtain ⟨_, _, _, tail, h1, h2, _, h4⟩ := runBooks_spec reqs db0 dbF hwf hrun
  exact ⟨tail, h1, fun a ha => (h2 a ha).1, h4⟩

/-- Witness for C1 at a concrete one-booking run. -/
theorem claim_C1_witness :
    ∃ created, dbMondayBooked.appointments = dbMonday.appointments ++ created ∧
      (∀ a ∈ created, a.status = Status.CONFIRMED) ∧
      created.Pairwise (NoOverlapPair dbMondayBooked) :=
  @claim_C1_no_double_booking dbMonday dbMondayBooked [reqMonday600]
    (by unfold WFDB; decide) (by decide)

theorem claimedBookedEnd_eq {db : DB} {dur : Nat}
    (hpos : ∀ t ∈ db.appointmentTypes, 0 < t.durationMinutes) (a : Appointment) :
    claimedBookedEnd db dur a =
      _add_minutes_to_time a.time (bookedDuration db dur a) := by
  unfold claimedBookedEnd bookedDuration
  cases h : a.appointmentTypeId.bind
      (fun tid => db.appointmentTypes.find? (fun t => decide (t.id = tid))) with
  | none => rfl
  | some t =>
    have ht : t ∈ db.appointmentTypes := by
      rcases hid : a.appointmentTypeId with _ | tid
      · rw [hid] at h
        simp [Option.bind] at h
      · rw [hid] at h
        simp only [Option.bind] at h
        exact List.mem_of_find?_eq_some h
    have hp := hpos t ht
    simp only
    rw [if_pos (by omega)]

/-- **C2**: a generated slot is marked unavailable exactly when its
half-open interval overlaps (`bookedStart < slotEnd` and
`bookedEnd > slotStart`) the interval of some appointment of that doctor on
that date, across all clinics, whose status is CONFIRMED or COMPLETED,
where each booked interval ends at `claimedBookedEnd` — the appointment's
own appointment-type duration when present, else the caller's requested
duration. -/
theorem claim_C2_availability_iff {db : DB} {doctorId clinicId targetDate dur : Nat}
    {s : Slot}
    (hpos : ∀ t ∈ db.appointmentTypes, 0 < t.durationMinutes)
    (hs : s ∈ generate_slots_for_date db (some doctorId) clinicId targetDate dur) :
    s.isAvailable = false ↔
      ∃ a ∈ db.appointments, a.doctorId = some doctorId ∧ a.date = targetDate ∧
        (a.status = Status.CONFIRMED ∨ a.status = Status.COMPLETED) ∧
        a.time < s.endTime ∧ s.time < claimedBookedEnd db dur a := by
  obtain ⟨hend, hflag, _⟩ := generate_slot_spec hs
  have hiff : s.isAvailable = false ↔
      _is_slot_booked s.time (s.time + dur)
        (bookedRanges db (some doctorId) targetDate dur) = true := by
    rw [hflag]
    cases _is_slot_booked s.time (s.time + dur)
      (bookedRanges db (some doctorId) targetDate dur) <;> simp
  rw [hiff, hend]
  simp only [_is_slot_booked, List.any_eq_true, decide_eq_true_eq]
  constructor
  · rintro ⟨r, hr, hlt, hgt⟩
    obtain ⟨a, ha, h1, h2, h3, rfl⟩ := mem_bookedRanges.mp hr
    exact ⟨a, ha, h1, h2, h3, hlt, by rw [claimedBookedEnd_eq hpos a]; exact hgt⟩
  · rintro ⟨a, ha, h1, h2, h3, h4, h5⟩
    refine ⟨(a.time, _add_minutes_to_time a.time (bookedDuration db dur a)),
      mem_bookedRanges.mpr ⟨a, ha, h1, h2, h3, rfl⟩, h4, ?_⟩
    rw [← claimedBookedEnd_eq hpos a]
    exact h5

/-- Witness for C2 at the booked 10:00 slot of the concrete Monday state. -/
theorem claim_C2_witness :
    ({ time := 600, endTime := 630, isAvailable := false } : Slot) ∈
      generate_slots_for_date dbMondayBooked (some 1) 1 0 30 ∧
    (({ time := 600, endTime := 630, isAvailable := false } : Slot).isAvailable = false ↔
      ∃ a ∈ dbMondayBooked.appointments, a.doctorId = some 1 ∧ a.date = 0 ∧
        (a.status = Status.CONFIRMED ∨ a.status = Status.COMPLETED) ∧
        a.time < ({ time := 600, endTime := 630, isAvailable := false } : Slot).endTime ∧
        ({ time := 600, endTime := 630, isAvailable := false } : Slot).time <
          claimedBookedEnd dbMondayBooked 30 a) :=
  ⟨by decide,
    @claim_C2_availability_iff dbMondayBooked 1 1 0 30
      { time := 600, endTime := 630, isAvailable := false }
      (by decide) (by decide)⟩

/-- **C3**: slots are generated block by block, blocks taken in ascending
`start_time` order (the sort is a permutation of the active blocks and is
sorted); within each block the emitted slots are the consecutive
duration-sized steps from `block.start` for as long as the slot end does not
exceed `block.end` (the trailing remainder is dropped — closed form with
`(end - start) / duration` full slots).  Concretely, the Monday
09:00–12:00 / 30-minute scenario yields exactly the six slots 09:00 … 11:30
all available; booking 10:00 succeeds and the same call then marks exactly
the 10:00 slot unavailable. -/
theorem claim_C3_block_walk_and_monday :
    (∀ l, List.Perm (sortByStartTime l) l) ∧
    (∀ l, (sortByStartTime l).Pairwise (fun x y => x.startTime ≤ y.startTime)) ∧
    (∀ (db : DB) (doctorId : Option Nat) (clinicId targetDate dur : Nat), 0 < dur →
      generate_slots_for_date db doctorId clinicId targetDate dur =
        (sortByStartTime (db.availabilities.filter (fun b =>
          decide (some b.doctorId = doctorId ∧ b.clinicId = clinicId ∧
            b.dayOfWeek = dayOfWeek targetDate ∧ b.isActive = true)))).flatMap
          (fun block => (List.range ((block.endTime - block.startTime) / dur)).map
            (fun i =>
              { time := block.startTime + i * dur
                endTime := block.startTime + i * dur + dur
                isAvailable := !_is_slot_booked (block.startTime + i * dur)
                  (block.startTime + i * dur + dur)
                  (bookedRanges db doctorId targetDate dur) }))) ∧
    generate_slots_for_date dbMonday (some 1) 1 0 30 = mondaySlots true ∧
    book_appointment dbMonday 0 0 10 1 1 1 0 600 "" =
      Except.ok (dbMondayBooked, apptMonday600) ∧
    generate_slots_for_date dbMondayBooked (some 1) 1 0 30 = mondaySlots false := by
  refine ⟨sortByStartTime_perm, sortByStartTime_pairwise, ?_, by decide, ?_, by decide⟩
  · intro db doctorId clinicId targetDate dur hdur
    simp only [generate_slots_for_date]
    exact congrArg _ (funext fun block =>
      slotLoop_eq_range (bookedRanges db doctorId targetDate dur) block.endTime hdur
        (block.endTime + 1) block.startTime (by omega))
  · rfl

/-- Witness for C3: the closed form instantiated on the concrete Monday
database. -/
theorem claim_C3_witness :
    generate_slots_for_date dbMonday (some 1) 1 0 30 =
      (sortByStartTime (dbMonday.availabilities.filter (fun b =>
        decide (some b.doctorId = some 1 ∧ b.clinicId = 1 ∧
          b.dayOfWeek = dayOfWeek 0 ∧ b.isActive = true)))).flatMap
        (fun block => (List.range ((block.endTime - block.startTime) / 30)).map
          (fun i =>
            { time := block.startTime + i * 30
              endTime := block.startTime + i * 30 + 30
              isAvailable := !_is_slot_booked (block.startTime + i * 30)
                (block.startTime + i * 30 + 30)
                (bookedRanges dbMonday (some 1) 0 30) })) :=
  claim_C3_block_walk_and_monday.2.2.1 dbMonday (some 1) 1 0 30 (by decide)

/-- **C5**: `book_appointment` fails with a `past_date`-coded error exactly
when the requested date is before today, or the date is today and the time
is not strictly after the current wall-clock time; this holds for every
value of the remaining parameters (in particular for an invalid clinic or
appointment type), because the date check runs before every other
validation. -/
theorem claim_C5_past_date_iff (db : DB)
    (today nowTime patientId doctorId clinicId appointmentTypeId
      appointmentDate appointmentTime : Nat) (reason : String) :
    (∃ e, book_appointment db today nowTime patientId doctorId clinicId
        appointmentTypeId appointmentDate appointmentTime reason =
        Except.error e ∧ e.code = "past_date") ↔
      (appointmentDate < today ∨
        (appointmentDate = today ∧ appointmentTime ≤ nowTime)) := by
  unfold book_appointment
  by_cases h1 : appointmentDate < today
  · rw [if_pos h1]
    simp [pastDateError, h1]
  · rw [if_neg h1]
    by_cases h2 : appointmentDate = today ∧ appointmentTime ≤ nowTime
    · rw [if_pos h2]
      simp [pastDateError, h2]
    · rw [if_neg h2]
      have hR : (appointmentDate < today ∨
          (appointmentDate = today ∧ appointmentTime ≤ nowTime)) = False :=
        eq_false (by tauto)
      rw [hR, iff_false]
      rintro ⟨e, he, hcode⟩
      dsimp only at he
      split at he
      · injection he with h3
        subst h3
        exact absurd hcode (by decide)
      · split at he
        · injection he with h3
          subst h3
          exact absurd hcode (by decide)
        · split at he
          · injection he with h3
            subst h3
            exact absurd hcode (by decide)
          · split at he
            · injection he with h3
              subst h3
              exact absurd hcode (by decide)
            · split at he
              · injection he with h3
                subst h3
                exact absurd hcode (by decide)
              · split at he
                · injection he with h3
                  subst h3
                  exact absurd hcode (by decide)
                · simp at he

/-- A patient cancellation that reaches the notification step (every check
passed, so the run ends in the NameError of the undefined notifier) has
persisted exactly the CANCELLED status transition and touched nothing
else. -/
theorem cancel_nameError_spec {db db2 : DB}
    {ns ns2 : List AppointmentNotification} {today nowTime aid pid : Nat} {n : String}
    (h : cancel_appointment db ns today nowTime aid pid =
      (db2, ns2, Except.error (ServiceError.nameError n))) :
    db2 = setAppointmentStatus db aid Status.CANCELLED ∧ ns2 = ns := by
  unfold cancel_appointment at h
  split at h
  · simp at h
  · rename_i appointment hfind
    dsimp only at h
    split at h
    · simp at h
    · split at h
      · simp at h
      · have hid : appointment.id = aid := by
          have hp := List.find?_some hfind
          simp only [decide_eq_true_eq] at hp
          exact hp.1
        rw [Prod.mk.injEq, Prod.mk.injEq] at h
        exact ⟨by rw [← h.1, hid], h.2.1.symm⟩

theorem bookedDuration_congr {db db' : DB}
    (h : db.appointmentTypes = db'.appointmentTypes) (dur : Nat) (a : Appointment) :
    bookedDuration db dur a = bookedDuration db' dur a := by
  unfold bookedDuration
  rw [h]

/-- **C4**: booking a slot, then cancelling that appointment (a pure status
transition to CANCELLED, whose run ends in the undefined-notifier NameError
after the commit), makes the same slot immediately bookable again: a
subsequent `book()` of the same slot by any patient succeeds and yields a
CONFIRMED appointment. -/
theorem claim_C4_cancel_frees_slot {db0 db1 db2 : DB}
    {ns ns2 : List AppointmentNotification}
    {today nowTime p1 p2 doctorId clinicId typeId date timeArg ctoday cnow : Nat}
    {r1 r2 : String} {a : Appointment}
    (hwf : WFDB db0)
    (hbook : book_appointment db0 today nowTime p1 doctorId clinicId typeId date
      timeArg r1 = Except.ok (db1, a))
    (hcancel : cancel_appointment db1 ns ctoday cnow a.id p1 =
      (db2, ns2, Except.error (ServiceError.nameError "_notify_staff_patient_cancelled"))) :
    ∃ db3 a2, book_appointment db2 today nowTime p2 doctorId clinicId typeId date
        timeArg r2 = Except.ok (db3, a2) ∧ a2.status = Status.CONFIRMED := by
  obtain ⟨hdate, htime, ⟨clinic, hclinic⟩, ty, hty, s, hs, havail, happt, hdb1⟩ :=
    book_ok_spec hbook
  obtain ⟨hdb2, -⟩ := cancel_nameError_spec hcancel
  obtain ⟨_, _, _, hlt, _⟩ := hwf
  have hida : a.id = db0.nextAppointmentId := by rw [happt]
  -- shape of the state after the cancellation
  have happts2 : db2.appointments =
      db0.appointments ++ [{ a with status := Status.CANCELLED }] := by
    rw [hdb2, hdb1]
    simp only [setAppointmentStatus, updateAppointmentRow, List.map_append]
    congr 1
    · conv_rhs => rw [← List.map_id db0.appointments]
      apply List.map_congr_left
      intro e he
      have hne : ¬e.id = a.id := by
        have := hlt e he
        omega
      rw [if_neg hne]
      rfl
    · simp [hida]
  have hclin2 : db2.clinics = db0.clinics := by rw [hdb2, hdb1]; rfl
  have hty2 : db2.appointmentTypes = db0.appointmentTypes := by rw [hdb2, hdb1]; rfl
  have hav2 : db2.availabilities = db0.availabilities := by rw [hdb2, hdb1]; rfl
  -- the cancelled row no longer occupies the calendar
  have hbr : bookedRanges db2 (some doctorId) date ty.durationMinutes =
      bookedRanges db0 (some doctorId) date ty.durationMinutes := by
    unfold bookedRanges
    rw [happts2, List.filter_append]
    have hnil : ([{ a with status := Status.CANCELLED }].filter (fun x =>
        decide (x.doctorId = some doctorId ∧ x.date = date ∧
          (x.status = Status.CONFIRMED ∨ x.status = Status.COMPLETED)))) = [] := by
      simp
    rw [hnil, List.append_nil]
    apply List.map_congr_left
    intro e _
    rw [bookedDuration_congr hty2]
  have hgen : generate_slots_for_date db2 (some doctorId) clinicId date
      ty.durationMinutes = generate_slots_for_date db0 (some doctorId) clinicId date
      ty.durationMinutes := by
    simp only [generate_slots_for_date]
    rw [hav2, hbr]
  have hclinic2 : db2.clinics.find? (fun c => decide (c.id = clinicId ∧
      c.isActive = true)) = some clinic := by
    rw [hclin2]
    exact hclinic
  have htyB : db2.appointmentTypes.find? (fun t =>
      decide (t.id = typeId ∧ t.doctorId = doctorId ∧ t.clinicId = clinicId ∧
        t.isActive = true)) = some ty := by
    rw [hty2]
    exact hty
  have hsB : (generate_slots_for_date db2 (some doctorId) clinicId date
      ty.durationMinutes).find? (fun x => decide (x.time = timeArg)) = some s := by
    rw [hgen]
    exact hs
  exact ⟨_, _, @book_ok_intro db2 today nowTime p2 doctorId clinicId typeId date
    timeArg r2 clinic ty s hdate htime hclinic2 htyB hsB havail, rfl⟩

/-- Witness for C4 on the concrete Monday scenario: book 10:00, cancel it,
and rebook it for patient 11. -/
theorem claim_C4_witness :
    ∃ db3 a2, book_appointment dbMondayCancelled 0 0 11 1 1 1 0 600 "" =
      Except.ok (db3, a2) ∧ a2.status = Status.CONFIRMED :=
  @claim_C4_cancel_frees_slot dbMonday dbMondayBooked dbMondayCancelled [] []
    0 0 10 11 1 1 1 0 600 0 0 "" "" apptMonday600
    (by unfold WFDB; decide) rfl rfl

/-- The outcome of a staff cancellation is a function of the target row's
id, clinic and status and of the notification table alone — in particular
`patient_edit_count` never enters it. -/
theorem cancel_by_staff_outcome (db : DB) (ns : List AppointmentNotification)
    (aid : Nat) (staff : ClinicStaff) :
    (cancel_appointment_by_staff db ns aid staff).2.2 =
      match db.appointments.find? (fun a => decide (a.id = aid)) with
      | none => Except.error (ServiceError.valueError "Appointment not found.")
      | some a =>
        if a.clinicId ≠ staff.clinicId then
          Except.error (ServiceError.valueError
            "You are not authorised to cancel appointments at this clinic.")
        else if a.status ∈ _TERMINAL_STATUSES then
          Except.error (ServiceError.valueError "Cannot cancel this appointment.")
        else if ns.any (fun m => decide (m.appointmentId ≠ none ∧
            m.appointmentId = some a.id ∧
            m.notificationType = NotifType.APPOINTMENT_CANCELLED)) then
          Except.error ServiceError.integrityError
        else Except.ok true := by
  unfold cancel_appointment_by_staff _notify_patient_cancellation
    _build_cancellation_message createNotification
  split
  · rfl
  · rename_i a hfind
    dsimp only
    split
    · rfl
    · split
      · rfl
      · by_cases hc : (ns.any fun m =>
            decide (m.appointmentId ≠ none ∧ m.appointmentId = some a.id ∧
              m.notificationType = NotifType.APPOINTMENT_CANCELLED)) = true
        · rw [if_pos hc]
          dsimp only
          rw [if_pos hc]
        · rw [if_neg hc]
          dsimp only
          rw [if_neg hc]

/-- **C6**: a patient edit succeeds only from PENDING or CONFIRMED with
`patient_edit_count` strictly below `MAX_PATIENT_EDITS = 2` and outside the
2-hour window, and on success increments the counter by exactly one; an
edit attempted at the limit fails with the edit-limit error; two successful
edits of the concrete appointment make the third fail with the edit-limit
error; and the staff cancellation outcome is unchanged when any row's
`patient_edit_count` is overwritten with any value. -/
theorem claim_C6_edit_rules :
    (∀ (db : DB) (ns : List AppointmentNotification)
      (today nowTime aid pid nd nt : Nat) (ntid : Option Nat) (nr : Option String)
      (db' : DB) (ns' : List AppointmentNotification) (a' : Appointment)
      (att : List CreateAttempt),
      edit_appointment db ns today nowTime aid pid nd nt ntid nr =
        (db', ns', Except.ok (a', att)) →
      ∃ a0, db.appointments.find? (fun x =>
          decide (x.id = aid ∧ x.patientId = pid)) = some a0 ∧
        (a0.status = Status.PENDING ∨ a0.status = Status.CONFIRMED) ∧
        a0.patientEditCount < MAX_PATIENT_EDITS ∧
        ¬(minutesUntil a0.date a0.time today nowTime <
          (CANCELLATION_WINDOW_HOURS * 60 : Nat)) ∧
        a'.patientEditCount = a0.patientEditCount + 1) ∧
    (∀ (db : DB) (ns : List AppointmentNotification)
      (today nowTime aid pid nd nt : Nat) (ntid : Option Nat) (nr : Option String)
      (a0 : Appointment),
      db.appointments.find? (fun x => decide (x.id = aid ∧ x.patientId = pid)) =
        some a0 →
      (a0.status = Status.PENDING ∨ a0.status = Status.CONFIRMED) →
      MAX_PATIENT_EDITS ≤ a0.patientEditCount →
      edit_appointment db ns today nowTime aid pid nd nt ntid nr =
        (db, ns, Except.error (ServiceError.valueError editLimitMessage))) ∧
    (∃ db1 ns1 a1 att1 db2 ns2 a2 att2,
      edit_appointment dbEdit [] 0 0 1 10 5 570 none none =
        (db1, ns1, Except.ok (a1, att1)) ∧
      edit_appointment db1 ns1 0 0 1 10 5 540 none none =
        (db2, ns2, Except.ok (a2, att2)) ∧
      edit_appointment db2 ns2 0 0 1 10 5 600 none none =
        (db2, ns2, Except.error (ServiceError.valueError editLimitMessage))) ∧
    (∀ (db : DB) (ns : List AppointmentNotification) (k n aid : Nat)
      (staff : ClinicStaff),
      (cancel_appointment_by_staff (setPatientEditCount db k n) ns aid staff).2.2 =
        (cancel_appointment_by_staff db ns aid staff).2.2) := by
  refine ⟨?_, ?_, ?_, ?_⟩
  · intro db ns today nowTime aid pid nd nt ntid nr db' ns' a' att h
    unfold edit_appointment at h
    split at h
    · simp at h
    · rename_i a0 hfind
      split at h
      · simp at h
      rename_i hstatus
      split at h
      · simp at h
      rename_i hcount
      split at h
      · simp at h
      rename_i hwindow
      split at h
      · simp at h
      split at h
      · simp at h
      dsimp only at h
      split at h
      · simp at h
      · simp at h
      · rename_i ty hty
        split at h
        · simp at h
        · rename_i mslot hms
          split at h
          · simp at h
          · split at h
            · simp at h
            · rename_i lslot hls
              split at h
              · simp at h
              · rw [Prod.mk.injEq, Prod.mk.injEq, Except.ok.injEq, Prod.mk.injEq] at h
                refine ⟨a0, hfind, by tauto, by omega, hwindow, ?_⟩
                rw [← h.2.2.1]
  · intro db ns today nowTime aid pid nd nt ntid nr a0 hfind hstatus hcount
    unfold edit_appointment
    rw [hfind]
    dsimp only
    rw [if_neg (not_not_intro hstatus)]
    rw [if_pos hcount]
  · exact ⟨_, _, _, _, _, _, _, _, rfl, rfl, rfl⟩
  · intro db ns k n aid staff
    rw [cancel_by_staff_outcome, cancel_by_staff_outcome]
    have hfind : (setPatientEditCount db k n).appointments.find?
        (fun a => decide (a.id = aid)) =
        Option.map (fun a : Appointment =>
          if a.id = k then { a with patientEditCount := n } else a)
          (db.appointments.find? (fun a => decide (a.id = aid))) := by
      simp only [setPatientEditCount, updateAppointmentRow]
      rw [List.find?_map]
      have hpf : ((fun a : Appointment => decide (a.id = aid)) ∘ (fun a : Appointment =>
          if a.id = k then { a with patientEditCount := n } else a)) =
          (fun a : Appointment => decide (a.id = aid)) := by
        funext a
        simp only [Function.comp]
        split <;> rfl
      rw [hpf]
    rw [hfind]
    cases hf : db.appointments.find? (fun a => decide (a.id = aid)) with
    | none => rfl
    | some a =>
      dsimp only [Option.map]
      by_cases hak : a.id = k
      · rw [if_pos hak]
      · rw [if_neg hak]

/-- Witness for C6: with the concrete appointment's edit counter forced to
the limit, the edit attempt fails with the edit-limit error. -/
theorem claim_C6_witness :
    edit_appointment (setPatientEditCount dbEdit 1 2) [] 0 0 1 10 5 570 none none =
      (setPatientEditCount dbEdit 1 2, [],
        Except.error (ServiceError.valueError editLimitMessage)) :=
  claim_C6_edit_rules.2.1 (setPatientEditCount dbEdit 1 2) [] 0 0 1 10 5 570 none none
    { id := 1, patientId := 10, clinicId := 1, doctorId := some 2,
      appointmentTypeId := some 1, date := 5, time := 600,
      status := Status.CONFIRMED, reason := "", patientEditCount := 2,
      createdById := some 10 }
    (by decide) (Or.inr rfl) (by decide)

/-- **C7** (evaluation at the failing input): a patient cancellation that
passes the ownership, terminal-status and window checks does not return
`True` and does not raise a `ValueError` — it persists the CANCELLED status
and then raises the `NameError` of the undefined
`_notify_staff_patient_cancelled`. -/
theorem claim_C7_cancel_raises_nameerror :
    (cancel_appointment dbCancelInput [] 0 0 1 10).2.2 =
      Except.error (ServiceError.nameError "_notify_staff_patient_cancelled") ∧
    (∀ m, (cancel_appointment dbCancelInput [] 0 0 1 10).2.2 ≠
      Except.error (ServiceError.valueError m)) ∧
    (cancel_appointment dbCancelInput [] 0 0 1 10).2.2 ≠ Except.ok true ∧
    (cancel_appointment dbCancelInput [] 0 0 1 10).1.appointments =
      [{ id := 1, patientId := 10, clinicId := 1, doctorId := some 1,
         appointmentTypeId := some 1, date := 7, time := 600,
         status := Status.CANCELLED, reason := "", patientEditCount := 0,
         createdById := some 10 }] := by
  have h1 : (cancel_appointment dbCancelInput [] 0 0 1 10).2.2 =
      Except.error (ServiceError.nameError "_notify_staff_patient_cancelled") := rfl
  refine ⟨h1, ?_, ?_, rfl⟩
  · intro m hEq
    rw [h1] at hEq
    simp at hEq
  · intro hEq
    rw [h1] at hEq
    simp at hEq

/-- **C8 counterexample**: the claim "a notification-creation failure never
prevents the cancel operation from returning success" fails at a concrete
input: a staff cancellation whose in-app notification row already exists
for the (appointment, APPOINTMENT_CANCELLED) pair ends in an IntegrityError
instead of returning True (the committed CANCELLED status does persist, and
no notification row is added). -/
theorem claim_C8_counterexample :
    (cancel_appointment_by_staff dbCancelInput [existingCancelNotification] 1
      secretaryStaff).2.2 = Except.error ServiceError.integrityError ∧
    (cancel_appointment_by_staff dbCancelInput [existingCancelNotification] 1
      secretaryStaff).2.2 ≠ Except.ok true ∧
    (cancel_appointment_by_staff dbCancelInput [existingCancelNotification] 1
      secretaryStaff).1.appointments =
      [{ id := 1, patientId := 10, clinicId := 1, doctorId := some 1,
         appointmentTypeId := some 1, date := 7, time := 600,
         status := Status.CANCELLED, reason := "", patientEditCount := 0,
         createdById := some 10 }] ∧
    (cancel_appointment_by_staff dbCancelInput [existingCancelNotification] 1
      secretaryStaff).2.1 = [existingCancelNotification] := by
  have h1 : (cancel_appointment_by_staff dbCancelInput [existingCancelNotification] 1
      secretaryStaff).2.2 = Except.error ServiceError.integrityError := rfl
  refine ⟨h1, ?_, rfl, rfl⟩
  intro hEq
  rw [h1] at hEq
  simp at hEq

set_option maxHeartbeats 1000000 in
/-- **C8 amended**: notification dispatch runs strictly after the status
change is committed.  In the patient-edit dispatcher every in-app creation
failure is caught and swallowed, so whether an edit returns success never
depends on the notification table.  In the staff-cancellation dispatcher
the in-app creation is not guarded: when a row for the (appointment,
APPOINTMENT_CANCELLED) pair already exists the operation raises an
IntegrityError instead of returning success — but the committed CANCELLED
status is still not rolled back and no row is added. -/
theorem claim_C8_amended_dispatch :
    (∀ (db : DB) (ns ns2 : List AppointmentNotification)
       (today nowTime aid pid nd nt : Nat) (ntid : Option Nat) (nr : Option String),
      ((edit_appointment db ns today nowTime aid pid nd nt ntid nr).2.2).isOk =
        ((edit_appointment db ns2 today nowTime aid pid nd nt ntid nr).2.2).isOk) ∧
    (∀ (db : DB) (ns : List AppointmentNotification) (aid : Nat)
       (staff : ClinicStaff) (a : Appointment),
      db.appointments.find? (fun x => decide (x.id = aid)) = some a →
      ¬a.clinicId ≠ staff.clinicId →
      a.status ∉ _TERMINAL_STATUSES →
      ns.any (fun m => decide (m.appointmentId ≠ none ∧
          m.appointmentId = some a.id ∧
          m.notificationType = NotifType.APPOINTMENT_CANCELLED)) = true →
      cancel_appointment_by_staff db ns aid staff =
        (setAppointmentStatus db a.id Status.CANCELLED, ns,
          Except.error ServiceError.integrityError)) := by
  constructor
  · intro db ns ns2 today nowTime aid pid nd nt ntid nr
    unfold edit_appointment
    split
    · rfl
    · split
      · rfl
      split
      · rfl
      split
      · rfl
      split
      · rfl
      split
      · rfl
      dsimp only
      split
      · rfl
      · rfl
      · split
        · rfl
        · split
          · rfl
          · split
            · rfl
            · split
              · rfl
              · rfl
  · intro db ns aid staff a hfind hclinic hterm hdup
    unfold cancel_appointment_by_staff _notify_patient_cancellation
      _build_cancellation_message createNotification
    rw [hfind]
    dsimp only
    rw [if_neg hclinic, if_neg hterm, if_pos hdup]

/-- Witness for the amended C8 at the concrete duplicate-notification
input. -/
theorem claim_C8_witness :
    cancel_appointment_by_staff dbCancelInput [existingCancelNotification] 1
        secretaryStaff =
      (setAppointmentStatus dbCancelInput 1 Status.CANCELLED,
        [existingCancelNotification], Except.error ServiceError.integrityError) :=
  claim_C8_amended_dispatch.2 dbCancelInput [existingCancelNotification] 1
    secretaryStaff
    { id := 1, patientId := 10, clinicId := 1, doctorId := some 1,
      appointmentTypeId := some 1, date := 7, time := 600,
      status := Status.CONFIRMED, reason := "", patientEditCount := 0,
      createdById := some 10 }
    (by decide) (by decide) (by decide) (by decide)

/-- The fan-out loop makes one create attempt per recipient, in recipient
order, with the maker's type, title and message. -/
theorem attemptCreateAll_attempts (mk : Nat → AppointmentNotification) :
    ∀ (ns : List AppointmentNotification) (recips : List Nat),
      ((attemptCreateAll mk ns recips).2).map
          (fun c => (c.recipientId, c.notificationType, c.title, c.message)) =
        recips.map (fun u =>
          (u, (mk u).notificationType, (mk u).title, (mk u).message)) := by
  intro ns recips
  induction recips generalizing ns with
  | nil => rfl
  | cons u rest ih =>
    unfold attemptCreateAll
    cases h : createNotification ns (mk u) with
    | ok ns2 =>
      dsimp only
      rw [List.map_cons, ih ns2]
      rfl
    | error e =>
      dsimp only
      rw [List.map_cons, ih ns]
      rfl

/-- What the merged `_notify_staff_patient_edited` attempts: an
APPOINTMENT_EDITED notification for every recipient, followed by an
APPOINTMENT_CANCELLED notification for every recipient whose title and
message say the patient cancelled the appointment. -/
theorem notify_edited_attempts (db : DB) (ns : List AppointmentNotification)
    (appointment : Appointment) (od ot : Nat) (oty : Option Nat) :
    ((_notify_staff_patient_edited db ns appointment od ot oty).2).map
        (fun c => (c.recipientId, c.notificationType, c.title, c.message)) =
      (editRecipients db appointment).map (fun u =>
        (u, NotifType.APPOINTMENT_EDITED, NotifTitle.editedByPatient,
          NotifMessage.patientEditedMsg
            (userName db (some appointment.patientId) "مريض") od ot
            appointment.date appointment.time
            (clinicNameOf db appointment.clinicId))) ++
      (editRecipients db appointment).map (fun u =>
        (u, NotifType.APPOINTMENT_CANCELLED, NotifTitle.cancelledByPatient,
          NotifMessage.patientCancelledMsg
            (userName db (some appointment.patientId) "مريض")
            appointment.date appointment.time
            (clinicNameOf db appointment.clinicId))) := by
  unfold _notify_staff_patient_edited
  dsimp only
  rw [List.map_append]
  rw [attemptCreateAll_attempts, attemptCreateAll_attempts]

/-- Success elimination for `edit_appointment`: the reached state, attempt
list and updated row come from the post-commit notifier on the updated
database. -/
theorem edit_ok_spec {db : DB} {ns : List AppointmentNotification}
    {today nowTime aid pid nd nt : Nat} {ntid : Option Nat} {nr : Option String}
    {db' : DB} {ns' : List AppointmentNotification} {a' : Appointment}
    {att : List CreateAttempt}
    (h : edit_appointment db ns today nowTime aid pid nd nt ntid nr =
      (db', ns', Except.ok (a', att))) :
    ∃ a0, db.appointments.find? (fun x =>
        decide (x.id = aid ∧ x.patientId = pid)) = some a0 ∧
      db' = updateAppointmentRow db a0.id (fun _ => a') ∧
      ns' = (_notify_staff_patient_edited db' ns a' a0.date a0.time
        a0.appointmentTypeId).1 ∧
      att = (_notify_staff_patient_edited db' ns a' a0.date a0.time
        a0.appointmentTypeId).2 := by
  unfold edit_appointment at h
  split at h
  · simp at h
  · rename_i a0 hfind
    split at h
    · simp at h
    split at h
    · simp at h
    split at h
    · simp at h
    split at h
    · simp at h
    split at h
    · simp at h
    dsimp only at h
    split at h
    · simp at h
    · simp at h
    · rename_i ty hty
      split at h
      · simp at h
      · rename_i mslot hms
        split at h
        · simp at h
        · split at h
          · simp at h
          · rename_i lslot hls
            split at h
            · simp at h
            · rw [Prod.mk.injEq, Prod.mk.injEq, Except.ok.injEq, Prod.mk.injEq] at h
              obtain ⟨hdb, hns, ha, hatt⟩ := h
              refine ⟨a0, hfind, ?_, ?_, ?_⟩
              · rw [← hdb, ← ha]
              · rw [← hns, ← ha, ← hdb]
              · rw [← hatt, ← ha, ← hdb]

/-- **C9**: after every successful patient edit, the post-commit helper
attempts to create, for the assigned doctor and every active secretary of
the appointment's clinic, an APPOINTMENT_EDITED notification and,
afterwards within the same function, an APPOINTMENT_CANCELLED notification
whose title and message state that the patient cancelled the appointment —
even though the appointment was edited, not cancelled. -/
theorem claim_C9_edit_sends_cancelled_notifications {db : DB}
    {ns : List AppointmentNotification} {today nowTime aid pid nd nt : Nat}
    {ntid : Option Nat} {nr : Option String} {db' : DB}
    {ns' : List AppointmentNotification} {a' : Appointment}
    {att : List CreateAttempt}
    (h : edit_appointment db ns today nowTime aid pid nd nt ntid nr =
      (db', ns', Except.ok (a', att))) :
    ∃ od ot,
      att.map (fun c => (c.recipientId, c.notificationType, c.title, c.message)) =
        (editRecipients db' a').map (fun u =>
          (u, NotifType.APPOINTMENT_EDITED, NotifTitle.editedByPatient,
            NotifMessage.patientEditedMsg
              (userName db' (some a'.patientId) "مريض") od ot a'.date a'.time
              (clinicNameOf db' a'.clinicId))) ++
        (editRecipients db' a').map (fun u =>
          (u, NotifType.APPOINTMENT_CANCELLED, NotifTitle.cancelledByPatient,
            NotifMessage.patientCancelledMsg
              (userName db' (some a'.patientId) "مريض") a'.date a'.time
              (clinicNameOf db' a'.clinicId))) := by
  obtain ⟨a0, hfind, hdb, hns, hatt⟩ := edit_ok_spec h
  refine ⟨a0.date, a0.time, ?_⟩
  rw [hatt]
  exact notify_edited_attempts db' ns a' a0.date a0.time a0.appointmentTypeId

/-- Witness for C9 at the concrete edit of `dbEdit`. -/
theorem claim_C9_witness :
    ∃ db' ns' a' att, edit_appointment dbEdit [] 0 0 1 10 5 570 none none =
      (db', ns', Except.ok (a', att)) ∧
      ∃ od ot,
        att.map (fun c => (c.recipientId, c.notificationType, c.title, c.message)) =
          (editRecipients db' a').map (fun u =>
            (u, NotifType.APPOINTMENT_EDITED, NotifTitle.editedByPatient,
              NotifMessage.patientEditedMsg
                (userName db' (some a'.patientId) "مريض") od ot a'.date a'.time
                (clinicNameOf db' a'.clinicId))) ++
          (editRecipients db' a').map (fun u =>
            (u, NotifType.APPOINTMENT_CANCELLED, NotifTitle.cancelledByPatient,
              NotifMessage.patientCancelledMsg
                (userName db' (some a'.patientId) "مريض") a'.date a'.time
                (clinicNameOf db' a'.clinicId))) :=
  ⟨_, _, _, _, rfl,
    @claim_C9_edit_sends_cancelled_notifications dbEdit [] 0 0 1 10 5 570
      none none _ _ _ _ rfl⟩

theorem pairCount_append (l1 l2 : List AppointmentNotification) (ap : Nat)
    (ty : NotifType) :
    pairCount (l1 ++ l2) ap ty = pairCount l1 ap ty + pairCount l2 ap ty := by
  simp [pairCount, List.filter_append]

theorem pairCount_pos_iff {ns : List AppointmentNotification} {ap : Nat}
    {ty : NotifType} :
    0 < pairCount ns ap ty ↔
      ∃ m ∈ ns, m.appointmentId = some ap ∧ m.notificationType = ty := by
  rw [pairCount, List.length_pos_iff_exists_mem]
  constructor
  · rintro ⟨m, hm⟩
    rw [List.mem_filter] at hm
    refine ⟨m, hm.1, ?_⟩
    simpa using hm.2
  · rintro ⟨m, hmem, h1, h2⟩
    exact ⟨m, List.mem_filter.mpr ⟨hmem, by simp [h1, h2]⟩⟩

/-- A `create` that succeeds keeps the at-most-one-row-per-pair
invariant. -/
theorem createNotification_preserves_unique
    {ns ns' : List AppointmentNotification} {n : AppointmentNotification}
    (hU : UniquePerPair ns) (hC : createNotification ns n = Except.ok ns') :
    UniquePerPair ns' := by
  unfold createNotification at hC
  split at hC
  · simp at hC
  · rename_i hany
    rw [Except.ok.injEq] at hC
    subst hC
    intro ap ty
    rw [pairCount_append]
    by_cases hmatch : n.appointmentId = some ap ∧ n.notificationType = ty
    · have h0 : pairCount ns ap ty = 0 := by
        by_contra hne
        obtain ⟨m, hm, h1, h2⟩ := pairCount_pos_iff.mp (Nat.pos_of_ne_zero hne)
        exact hany (List.any_eq_true.mpr
          ⟨m, hm, by simp [h1, h2, hmatch.1, hmatch.2]⟩)
      rw [h0]
      have hle : pairCount [n] ap ty ≤ 1 := by
        simp [pairCount, List.filter]
        split <;> simp
      omega
    · have h1 : pairCount [n] ap ty = 0 := by
        have hd : (decide (n.appointmentId = some ap ∧ n.notificationType = ty)) =
            false := decide_eq_false hmatch
        unfold pairCount
        rw [List.filter_cons, hd]
        simp
      rw [h1]
      have := hU ap ty
      omega

/-- When a row for the pair already exists, the whole fan-out loop is a
no-op: every create attempt fails. -/
theorem attemptCreateAll_dup (mk : Nat → AppointmentNotification) (ap : Nat)
    (ty : NotifType)
    (hmk : ∀ u, (mk u).appointmentId = some ap ∧ (mk u).notificationType = ty) :
    ∀ (recips : List Nat) (ns : List AppointmentNotification),
      1 ≤ pairCount ns ap ty →
      (attemptCreateAll mk ns recips).1 = ns ∧
      ((attemptCreateAll mk ns recips).2).map (fun c => c.succeeded) =
        recips.map (fun _ => false) := by
  intro recips
  induction recips with
  | nil => exact fun ns _ => ⟨rfl, rfl⟩
  | cons u rest ih =>
    intro ns h1
    unfold attemptCreateAll
    have hc : createNotification ns (mk u) = Except.error () := by
      unfold createNotification
      have hdup : (ns.any fun m => decide (m.appointmentId ≠ none ∧
          m.appointmentId = (mk u).appointmentId ∧
          m.notificationType = (mk u).notificationType)) = true := by
        rw [List.any_eq_true]
        obtain ⟨m, hm, hm1, hm2⟩ := pairCount_pos_iff.mp h1
        exact ⟨m, hm, by simp [hm1, hm2, (hmk u).1, (hmk u).2]⟩
      rw [if_pos hdup]
    rw [hc]
    dsimp only
    refine ⟨(ih ns h1).1, ?_⟩
    rw [List.map_cons, (ih ns h1).2]
    rfl

/-- On a table with no row for the pair yet, the fan-out persists exactly
the first recipient's row; every later create attempt fails. -/
theorem attemptCreateAll_fresh (mk : Nat → AppointmentNotification) (ap : Nat)
    (ty : NotifType)
    (hmk : ∀ u, (mk u).appointmentId = some ap ∧ (mk u).notificationType = ty) :
    ∀ (ns : List AppointmentNotification) (u : Nat) (rest : List Nat),
      pairCount ns ap ty = 0 →
      pairCount (attemptCreateAll mk ns (u :: rest)).1 ap ty = 1 ∧
      ((attemptCreateAll mk ns (u :: rest)).2).map (fun c => c.succeeded) =
        true :: rest.map (fun _ => false) := by
  intro ns u rest h0
  unfold attemptCreateAll
  have hc : createNotification ns (mk u) = Except.ok (ns ++ [mk u]) := by
    unfold createNotification
    have hnd : ¬((ns.any fun m => decide (m.appointmentId ≠ none ∧
        m.appointmentId = (mk u).appointmentId ∧
        m.notificationType = (mk u).notificationType)) = true) := by
      intro hany
      obtain ⟨m, hm, hp⟩ := List.any_eq_true.mp hany
      simp only [decide_eq_true_eq] at hp
      have hpos : 0 < pairCount ns ap ty := pairCount_pos_iff.mpr
        ⟨m, hm, by rw [hp.2.1, (hmk u).1], by rw [hp.2.2, (hmk u).2]⟩
      omega
    rw [if_neg hnd]
  rw [hc]
  dsimp only
  have h1 : pairCount (ns ++ [mk u]) ap ty = 1 := by
    rw [pairCount_append, h0]
    have hd : (decide ((mk u).appointmentId = some ap ∧
        (mk u).notificationType = ty)) = true := by
      simp [(hmk u).1, (hmk u).2]
    unfold pairCount
    rw [List.filter_cons, hd]
    simp
  obtain ⟨hns, hflags⟩ := attemptCreateAll_dup mk ap ty hmk rest (ns ++ [mk u])
    (by omega)
  constructor
  · rw [hns]
    exact h1
  · rw [List.map_cons, hflags]

/-- **C10**: at most one `AppointmentNotification` row ever exists per
(appointment, notification_type) pair — a successful create preserves the
invariant — and since the uniqueness key has no recipient column, fanning
an event out to several recipients persists at most one recipient's row:
on a fresh table exactly the first create succeeds and every later create
attempt for the same pair fails with a uniqueness violation, and on a
table that already has the pair every attempt fails and nothing is
written. -/
theorem claim_C10_notification_uniqueness :
    (∀ (ns ns' : List AppointmentNotification) (n : AppointmentNotification),
      UniquePerPair ns → createNotification ns n = Except.ok ns' →
      UniquePerPair ns') ∧
    (∀ (mk : Nat → AppointmentNotification) (ap : Nat) (ty : NotifType),
      (∀ u, (mk u).appointmentId = some ap ∧ (mk u).notificationType = ty) →
      (∀ (ns : List AppointmentNotification) (recips : List Nat),
        1 ≤ pairCount ns ap ty →
        (attemptCreateAll mk ns recips).1 = ns ∧
        ((attemptCreateAll mk ns recips).2).map (fun c => c.succeeded) =
          recips.map (fun _ => false)) ∧
      (∀ (ns : List AppointmentNotification) (u : Nat) (rest : List Nat),
        pairCount ns ap ty = 0 →
        pairCount (attemptCreateAll mk ns (u :: rest)).1 ap ty = 1 ∧
        ((attemptCreateAll mk ns (u :: rest)).2).map (fun c => c.succeeded) =
          true :: rest.map (fun _ => false))) :=
  ⟨fun _ _ _ hU hC => createNotification_preserves_unique hU hC,
   fun mk ap ty hmk =>
    ⟨fun ns recips h => attemptCreateAll_dup mk ap ty hmk recips ns h,
     fun ns u rest h => attemptCreateAll_fresh mk ap ty hmk ns u rest h⟩⟩

/-- Witness for C10: fanning a cancellation out to recipients 2 and 7 on an
empty table persists exactly one row; the second attempt fails. -/
theorem claim_C10_witness :
    pairCount (attemptCreateAll (mkCancelNotif 1) [] [2, 7]).1 1
      NotifType.APPOINTMENT_CANCELLED = 1 ∧
    ((attemptCreateAll (mkCancelNotif 1) [] [2, 7]).2).map (fun c => c.succeeded) =
      true :: [7].map (fun _ => false) :=
  (claim_C10_notification_uniqueness.2 (mkCancelNotif 1) 1
    NotifType.APPOINTMENT_CANCELLED (fun u => ⟨rfl, rfl⟩)).2 [] 2 [7] (by decide)

end DoctorWebsite
